import Mathlib

/-!
Face-attendance capture session (Attendence.jsx)

A shallow embedding of the `Attendence` React component
(`src/frontend/src/Components/MachineLearning/Attendence.jsx`).

* `State` holds the `useState` cells of the component (lines 16-35).
* `World` adds what the handlers touch outside React state: the mounted
  video element (`videoRef`), the media streams whose tracks are still
  running, the requests sent with `fetch`, the `alert` messages, and the
  promises that have not settled yet.
* Every `async` handler is split at its `await`: a `...Begin` function for
  the synchronous part and a `...Resume` function for the continuation.  The
  continuation reads the `useState` values through the closure of the render
  in which the handler was created, so `handleRegisterFacesResume` takes the
  `stream` value captured at the click as an argument.
* `step` dispatches one UI event or one settled promise; `run` folds it over
  a trace.
-/

namespace Attendence

/-- The three values ever stored in the `view` cell (line 16, 81, 131, 145, 248). -/
inductive View where
  | home
  | register
  | recognize
deriving DecidableEq, Repr

/-- One entry of an attendance list, as rendered at lines 284-288. -/
structure Student where
  name : String
  roll : String
deriving DecidableEq, Repr

/-- The `useState` cells of the component, lines 16-35.  A media stream is
identified by a number; `stream = none` is the JavaScript `null`. -/
structure State where
  view : View
  stream : Option Nat
  capturedImages : List String
  studentName : String
  studentRoll : String
  recognizeImage : String
  recognizeResult : String
  recognizedName : String
  recognizedRoll : String
  attendedToday : List Student
  notAttendedToday : List Student
deriving DecidableEq, Repr

/-- The requests the component sends with `fetch` (lines 114, 172, 203, 226). -/
inductive Request where
  | registerFaces (name roll : String) (images : List String)
  | recognizeFace (image : String)
  | markAttendance (name roll : String)
  | attendanceStatus
deriving DecidableEq, Repr

/-- What the video element shows when a photo is taken: its `videoWidth`,
`videoHeight`, and the JPEG encoding of the current picture. -/
structure Frame where
  videoWidth : Nat
  videoHeight : Nat
  jpeg : String
deriving DecidableEq, Repr

/-- Body of a `/register-faces` or `/mark-attendance` reply. -/
structure StatusReply where
  status : String
  message : String
deriving DecidableEq, Repr

/-- Body of a `/recognize-face` reply. -/
structure RecognizeReply where
  status : String
  recognized : Bool
  name : String
  roll : String
  message : String
deriving DecidableEq, Repr

/-- Body of an `/attendance-status` reply. -/
structure AttendanceReply where
  status : String
  attended_today : List Student
  not_attended_today : List Student
deriving DecidableEq, Repr

/-- How an awaited `fetch(...)` followed by `res.json()` settles: with a parsed
body, or by throwing (transport or parsing failure), which lands in `catch`. -/
inductive Outcome (α : Type) where
  | reply (data : α)
  | failed
deriving DecidableEq, Repr

/-- How the awaited `getUserMedia` of `startCamera` settles (lines 49, 54). -/
inductive CameraOutcome where
  | granted
  | denied
deriving DecidableEq, Repr

/-- The component together with its surroundings.

* `videoRef`: `none` when `videoRef.current` is `null` (no video element is
  mounted), `some src` when the element is mounted with `srcObject = src`.
* `running`: the media streams whose tracks have not been stopped.
* `nextStream`: the identifier the next granted `getUserMedia` call returns.
* `cameraPending`: `getUserMedia` promises not yet settled.
* `registerPending`: for each `/register-faces` request in flight, the value
  of `stream` in the closure of the handler that sent it.
* `recognizePending`, `markPending`, `statusPending`: requests in flight.
* `requests`: every request sent so far, oldest first.
* `alerts`: every `alert(...)` shown so far, oldest first. -/
structure World where
  st : State
  videoRef : Option (Option Nat)
  running : List Nat
  nextStream : Nat
  cameraPending : Nat
  registerPending : List (Option Nat)
  recognizePending : Nat
  markPending : Nat
  statusPending : Nat
  requests : List Request
  alerts : List String
deriving DecidableEq, Repr

/-- The `alert(msg)` call. -/
def alert (msg : String) (w : World) : World :=
  { w with alerts := w.alerts ++ [msg] }

/-- The `fetch(...)` call: the request leaves the browser. -/
def send (rq : Request) (w : World) : World :=
  { w with requests := w.requests ++ [rq] }

/-- Lines 306-315: the video element is mounted exactly in the register and
recognize views.  Leaving both views unmounts it (`videoRef.current` becomes
`null`); entering one of them from home mounts a new element without a source. -/
def render (w : World) : World :=
  match w.st.view with
  | .home => { w with videoRef := none }
  | _ =>
    match w.videoRef with
    | none => { w with videoRef := some none }
    | some _ => w

/-- Platform call `canvas.toDataURL("image/jpeg")` at line 74: a canvas with no pixels
(width or height zero) yields the string `data:,`; any other canvas yields a
JPEG data URL. -/
def toDataURL (f : Frame) : String :=
  if f.videoWidth = 0 ∨ f.videoHeight = 0 then "data:,"
  else "data:image/jpeg;base64," ++ f.jpeg

/-- Source `startCamera`, lines 47-49, up to the `await`. -/
def startCameraBegin (w : World) : World :=
  { w with cameraPending := w.cameraPending + 1 }

/-- Source `startCamera`, lines 50-57, after the `await`: on success the new stream is
stored and attached to the video element if one is mounted; on failure an
alert is shown. -/
def startCameraResume (o : CameraOutcome) (w : World) : World :=
  match o with
  | .granted =>
    let userStream := w.nextStream
    { w with
      st := { w.st with stream := some userStream }
      videoRef := w.videoRef.map (fun _ => some userStream)
      running := userStream :: w.running
      nextStream := w.nextStream + 1 }
  | .denied => alert "Could not access camera. Check permissions!" w

/-- Source `stopCamera`, lines 60-65.  `stream` is the value the calling closure
holds: its tracks are stopped if it is not `null`, then the cell is set to
`null`. -/
def stopCamera (stream : Option Nat) (w : World) : World :=
  let w1 : World :=
    match stream with
    | some s => { w with running := w.running.filter (fun t => t ≠ s) }
    | none => w
  { w1 with st := { w1.st with stream := none } }

/-- Source `captureFrame`, lines 67-75: `null` without a video element, otherwise the
data URL of a canvas of the size of the video. -/
def captureFrame (w : World) (f : Frame) : Option String :=
  match w.videoRef with
  | none => none
  | some _ => some (toDataURL f)

/-- Source `handleStartRegister`, lines 80-87 (with `startCamera` up to its `await`). -/
def handleStartRegister (w : World) : World :=
  startCameraBegin
    { w with
      st := { w.st with
        view := .register
        capturedImages := []
        studentName := ""
        studentRoll := ""
        recognizeImage := "" } }

/-- Source `handleCaptureRegisterPhoto`, lines 89-94: `if (frame)` holds for a
non-null, non-empty string. -/
def handleCaptureRegisterPhoto (f : Frame) (w : World) : World :=
  match captureFrame w f with
  | some frame =>
    if frame ≠ "" then
      { w with st := { w.st with capturedImages := w.st.capturedImages ++ [frame] } }
    else w
  | none => w

/-- Source `handleClearCaptured`, lines 96-98. -/
def handleClearCaptured (w : World) : World :=
  { w with st := { w.st with capturedImages := [] } }

/-- Source `handleStopRegisterCamera`, lines 100-102. -/
def handleStopRegisterCamera (w : World) : World :=
  stopCamera w.st.stream w

/-- Source `handleRegisterFaces`, lines 104-122, up to the `await`: the world after
the synchronous part and the request passed to `fetch`, if one is sent. -/
def handleRegisterFacesBegin (w : World) : World × Option Request :=
  if w.st.studentName = "" ∨ w.st.studentRoll = "" then
    (alert "Please enter name and roll!" w, none)
  else if w.st.capturedImages.length = 0 then
    (alert "No captured images to register!" w, none)
  else
    (w, some (.registerFaces w.st.studentName w.st.studentRoll w.st.capturedImages))

/-- Source `handleRegisterFaces`, lines 123-138, after the `await`.  `stream` is the
value of the `stream` cell in the closure of the handler, the one `stopCamera`
reads at line 127. -/
def handleRegisterFacesResume (stream : Option Nat) (o : Outcome StatusReply)
    (w : World) : World :=
  match o with
  | .reply data =>
    if data.status = "ok" then
      let w1 := stopCamera stream (alert data.message w)
      { w1 with
        st := { w1.st with
          capturedImages := []
          studentName := ""
          studentRoll := ""
          view := .home } }
    else alert ("Error: " ++ data.message) w
  | .failed => alert "Failed to register faces." w

/-- Source `handleRegisterFaces`, lines 104-139, when the reply arrives before any
other event: the continuation runs on the world the click left. -/
def handleRegisterFaces (w : World) (o : Outcome StatusReply) : World :=
  match handleRegisterFacesBegin w with
  | (w1, none) => w1
  | (w1, some rq) => handleRegisterFacesResume w.st.stream o (send rq w1)

/-- Source `handleStartRecognize`, lines 144-151 (with `startCamera` up to its `await`). -/
def handleStartRecognize (w : World) : World :=
  startCameraBegin
    { w with
      st := { w.st with
        view := .recognize
        recognizeImage := ""
        recognizeResult := ""
        recognizedName := ""
        recognizedRoll := "" } }

/-- Source `handleCaptureRecognizePhoto`, lines 153-158. -/
def handleCaptureRecognizePhoto (f : Frame) (w : World) : World :=
  match captureFrame w f with
  | some frame =>
    if frame ≠ "" then { w with st := { w.st with recognizeImage := frame } }
    else w
  | none => w

/-- Source `handleStopRecognizeCamera`, lines 160-162. -/
def handleStopRecognizeCamera (w : World) : World :=
  stopCamera w.st.stream w

/-- Source `handleRecognizeFace`, lines 164-176, up to the `await`. -/
def handleRecognizeFaceBegin (w : World) : World × Option Request :=
  if w.st.recognizeImage = "" then
    (alert "No captured image for recognition!" w, none)
  else
    ({ w with st := { w.st with recognizeResult := "Recognizing..." } },
      some (.recognizeFace w.st.recognizeImage))

/-- Source `handleRecognizeFace`, lines 177-194, after the `await`. -/
def handleRecognizeFaceResume (o : Outcome RecognizeReply) (w : World) : World :=
  match o with
  | .reply data =>
    if data.status = "ok" then
      if ¬ data.recognized then
        { w with
          st := { w.st with
            recognizeResult := "No face detected or Unknown face."
            recognizedName := ""
            recognizedRoll := "" } }
      else
        { w with
          st := { w.st with
            recognizeResult := "Recognized: " ++ data.name ++ " (Roll: " ++ data.roll ++ ")"
            recognizedName := data.name
            recognizedRoll := data.roll } }
    else
      { w with st := { w.st with recognizeResult := "Error: " ++ data.message } }
  | .failed =>
    { w with st := { w.st with recognizeResult := "Error recognizing face." } }

/-- Source `fetchAttendanceStatus`, lines 224-227, up to the `await`. -/
def fetchAttendanceStatusBegin (w : World) : World × Option Request :=
  (w, some .attendanceStatus)

/-- Source `fetchAttendanceStatus`, lines 227-234, after the `await`. -/
def fetchAttendanceStatusResume (o : Outcome AttendanceReply) (w : World) : World :=
  match o with
  | .reply data =>
    if data.status = "ok" then
      { w with
        st := { w.st with
          attendedToday := data.attended_today
          notAttendedToday := data.not_attended_today } }
    else w
  | .failed => w

/-- Source `handleMarkAttendance`, lines 197-207, up to the `await`. -/
def handleMarkAttendanceBegin (w : World) : World × Option Request :=
  if w.st.recognizedName = "" ∨ w.st.recognizedRoll = "" then
    (alert "No recognized student info." w, none)
  else
    (w, some (.markAttendance w.st.recognizedName w.st.recognizedRoll))

/-- Source `handleMarkAttendance`, lines 208-218, after the `await`: the world and
whether `fetchAttendanceStatus()` was called (line 211). -/
def handleMarkAttendanceResume (o : Outcome StatusReply) (w : World) : World × Bool :=
  match o with
  | .reply data =>
    if data.status = "ok" then (alert data.message w, true)
    else (alert ("Error: " ++ data.message) w, false)
  | .failed => (alert "Error marking attendance." w, false)

/-- The Home button, lines 247-250: `setView("home"); stopCamera();`. -/
def handleHome (w : World) : World :=
  stopCamera w.st.stream { w with st := { w.st with view := .home } }

/-- The text inputs, lines 359 and 366. -/
def handleNameInput (v : String) (w : World) : World :=
  { w with st := { w.st with studentName := v } }

/-- The roll input, line 366. -/
def handleRollInput (v : String) (w : World) : World :=
  { w with st := { w.st with studentRoll := v } }

/-- A click, a keystroke in a text input, or a settled promise.
`registerReply i o` settles the `i`-th `/register-faces` request in flight. -/
inductive Event where
  | homeButton
  | startRegister
  | startRecognize
  | cameraSettled (o : CameraOutcome)
  | captureRegisterPhoto (f : Frame)
  | clearCaptured
  | stopRegisterCamera
  | nameInput (v : String)
  | rollInput (v : String)
  | registerFaces
  | registerReply (i : Nat) (o : Outcome StatusReply)
  | captureRecognizePhoto (f : Frame)
  | stopRecognizeCamera
  | recognizeFace
  | recognizeReply (o : Outcome RecognizeReply)
  | markAttendance
  | markReply (o : Outcome StatusReply)
  | refresh
  | statusReply (o : Outcome AttendanceReply)
deriving DecidableEq, Repr

/-- The handler an event runs.  A button acts only in the view that renders
it (lines 318-376 for register, 379-457 for recognize, 270-303 for home; the
three navigation buttons of lines 245-267 are always there); a promise settles
only if it is pending.  The Mark Attendance button is taken as clickable in the
whole recognize view, so that the check inside `handleMarkAttendance` decides. -/
def dispatch (w : World) : Event → World
  | .homeButton => handleHome w
  | .startRegister => handleStartRegister w
  | .startRecognize => handleStartRecognize w
  | .cameraSettled o =>
    if w.cameraPending = 0 then w
    else startCameraResume o { w with cameraPending := w.cameraPending - 1 }
  | .captureRegisterPhoto f =>
    if w.st.view = .register then handleCaptureRegisterPhoto f w else w
  | .clearCaptured =>
    if w.st.view = .register then handleClearCaptured w else w
  | .stopRegisterCamera =>
    if w.st.view = .register then handleStopRegisterCamera w else w
  | .nameInput v =>
    if w.st.view = .register then handleNameInput v w else w
  | .rollInput v =>
    if w.st.view = .register then handleRollInput v w else w
  | .registerFaces =>
    if w.st.view = .register then
      match handleRegisterFacesBegin w with
      | (w1, none) => w1
      | (w1, some rq) =>
        { send rq w1 with registerPending := w1.registerPending ++ [w.st.stream] }
    else w
  | .registerReply i o =>
    match w.registerPending.get? i with
    | none => w
    | some stream =>
      handleRegisterFacesResume stream o
        { w with registerPending := w.registerPending.eraseIdx i }
  | .captureRecognizePhoto f =>
    if w.st.view = .recognize then handleCaptureRecognizePhoto f w else w
  | .stopRecognizeCamera =>
    if w.st.view = .recognize then handleStopRecognizeCamera w else w
  | .recognizeFace =>
    if w.st.view = .recognize then
      match handleRecognizeFaceBegin w with
      | (w1, none) => w1
      | (w1, some rq) => { send rq w1 with recognizePending := w1.recognizePending + 1 }
    else w
  | .recognizeReply o =>
    if w.recognizePending = 0 then w
    else handleRecognizeFaceResume o { w with recognizePending := w.recognizePending - 1 }
  | .markAttendance =>
    if w.st.view = .recognize then
      match handleMarkAttendanceBegin w with
      | (w1, none) => w1
      | (w1, some rq) => { send rq w1 with markPending := w1.markPending + 1 }
    else w
  | .markReply o =>
    if w.markPending = 0 then w
    else
      match handleMarkAttendanceResume o { w with markPending := w.markPending - 1 } with
      | (w1, false) => w1
      | (w1, true) =>
        { send .attendanceStatus w1 with statusPending := w1.statusPending + 1 }
  | .refresh =>
    if w.st.view = .register then w
    else { send .attendanceStatus w with statusPending := w.statusPending + 1 }
  | .statusReply o =>
    if w.statusPending = 0 then w
    else fetchAttendanceStatusResume o { w with statusPending := w.statusPending - 1 }

/-- One event: the handler runs, then React renders the new state. -/
def step (w : World) (e : Event) : World :=
  render (dispatch w e)

/-- A trace of events, oldest first. -/
def run (w : World) (evs : List Event) : World :=
  evs.foldl step w

/-- The component right after it is mounted: the initial `useState` values of
lines 16-35, no video element, and the `fetchAttendanceStatus()` of the mount
effect (lines 40-42) in flight. -/
def init : World :=
  { st :=
      { view := .home
        stream := none
        capturedImages := []
        studentName := ""
        studentRoll := ""
        recognizeImage := ""
        recognizeResult := ""
        recognizedName := ""
        recognizedRoll := ""
        attendedToday := []
        notAttendedToday := [] }
    videoRef := none
    running := []
    nextStream := 0
    cameraPending := 0
    registerPending := []
    recognizePending := 0
    markPending := 0
    statusPending := 1
    requests := [.attendanceStatus]
    alerts := [] }

/-- Every camera acquisition of the trace that succeeds does so while the
register or recognize view is shown. -/
def grantsInView : World → List Event → Bool
  | _, [] => true
  | w, e :: es =>
    (decide (e = .cameraSettled .granted → w.st.view ≠ .home)) && grantsInView (step w e) es


/-- The enrollment of scenario A of the specification, just before the submit:
start register, camera granted, two photos, name Asha, roll 101. -/
def scenarioA : World :=
  run init [.startRegister, .cameraSettled .granted,
    .captureRegisterPhoto ⟨640, 480, "AAAA"⟩, .captureRegisterPhoto ⟨640, 480, "BBBB"⟩,
    .nameInput "Asha", .rollInput "101"]

/-- Events that take the session out of the register view: Home, start
recognize, and a reply to `/register-faces` with status "ok". -/
def Event.leavesRegister : Event → Bool
  | .homeButton => true
  | .startRecognize => true
  | .registerReply _ (.reply d) => decide (d.status = "ok")
  | _ => false

/-- Events that empty the enrollment buffer in the register view: Clear Photos
and start register. -/
def Event.resetsBuffer : Event → Bool
  | .clearCaptured => true
  | .startRegister => true
  | _ => false

/-- Whether the event is a click on Capture Photo of the register view. -/
def Event.isRegisterCapture : Event → Bool
  | .captureRegisterPhoto _ => true
  | _ => false

/-- The events after the most recent clear or start register of a trace. -/
def sinceLastReset (evs : List Event) : List Event :=
  (evs.reverse.takeWhile (fun e => !e.resetsBuffer)).reverse

/-- The data URL a click on Capture Photo of the register view takes from the
video element, whatever the size of the video. -/
def capturedDataURL : Event → Option String
  | .captureRegisterPhoto f => some (toDataURL f)
  | _ => none

/-- The data URLs of all capture-photo events since the most recent clear or
start register, in capture order. -/
def dataURLsSinceReset (evs : List Event) : List String :=
  (sinceLastReset evs).filterMap capturedDataURL

/-- The number of capture-photo events since the most recent clear or start
register. -/
def captureEventsSinceReset (evs : List Event) : Nat :=
  (sinceLastReset evs).countP Event.isRegisterCapture

/-- Specification side, sections 4.2 and 4.6: a capture succeeds when the video
has live dimensions; before the stream has valid dimensions it fails with
`NoActiveFrame`. -/
def specCaptureSucceeds (f : Frame) : Bool :=
  decide (f.videoWidth ≠ 0) && decide (f.videoHeight ≠ 0)

/-- Specification side: the frame a capture-photo event adds to the buffer: the
captured image when the capture succeeds, nothing when it fails. -/
def specCapturedFrame : Event → Option String
  | .captureRegisterPhoto f => if specCaptureSucceeds f then some (toDataURL f) else none
  | _ => none

/-- Specification side: the frames successfully captured since the most recent
clear or start register, in capture order. -/
def specFramesSinceReset (evs : List Event) : List String :=
  (sinceLastReset evs).filterMap specCapturedFrame

/-- Specification side: the number of successful captures since the most recent
clear or start register. -/
def specCapturesSinceReset (evs : List Event) : Nat :=
  (sinceLastReset evs).countP (fun e => (specCapturedFrame e).isSome)

/-- Whether the event is no capture from a video without live dimensions. -/
def Event.captureIsLive : Event → Bool
  | .captureRegisterPhoto f => specCaptureSucceeds f
  | _ => true

/-- Every capture since the most recent clear or start register was taken from
a video with live dimensions. -/
def allCapturesLive (evs : List Event) : Bool :=
  (sinceLastReset evs).all Event.captureIsLive

/-- An enrollment session with the camera grant and keystrokes between the
buffer events: camera granted, photo, name, clear, photo, roll, photo. -/
def enrollTrace : List Event :=
  [.cameraSettled .granted, .captureRegisterPhoto ⟨640, 480, "AAAA"⟩, .nameInput "Asha",
    .clearCaptured, .captureRegisterPhoto ⟨640, 480, "BBBB"⟩, .rollInput "101",
    .captureRegisterPhoto ⟨640, 480, "CCCC"⟩]

/-- A reply to `/recognize-face` with status "ok" and `recognized` true. -/
def Event.isRecognizedReply : Event → Bool
  | .recognizeReply (.reply d) => decide (d.status = "ok") && d.recognized
  | _ => false

/-- No request of the list is a mark-attendance request. -/
def noMarkRequest (rqs : List Request) : Prop :=
  ∀ n r, Request.markAttendance n r ∉ rqs

/-- Stream identifiers are fresh: every running stream and the held stream were
handed out before `nextStream`. -/
def Fresh (w : World) : Prop :=
  (∀ s ∈ w.running, s < w.nextStream) ∧ (∀ s, w.st.stream = some s → s < w.nextStream)

/-- Source `handleRecognizeFace`, lines 164-195, when the reply arrives before
any other event: the continuation runs on the world the click left. -/
def handleRecognizeFace (w : World) (o : Outcome RecognizeReply) : World :=
  match handleRecognizeFaceBegin w with
  | (w1, none) => w1
  | (w1, some rq) => handleRecognizeFaceResume o (send rq w1)

/-- The recognition of scenario C of the specification, just before the mark:
start recognize, camera granted, one photo, Recognize, and the reply "ok" with
`recognized` true, name Ravi, roll 55. -/
def scenarioC : World :=
  run init [.startRecognize, .cameraSettled .granted,
    .captureRecognizePhoto ⟨640, 480, "AAAA"⟩, .recognizeFace,
    .recognizeReply (.reply ⟨"ok", true, "Ravi", "55", ""⟩)]

end Attendence

/-!
Generated-menu CSV export (Menu.jsx)

A shallow embedding of `handleDownloadNewMenu`
(`src/frontend/src/Components/Menu.jsx`, lines 113-134).  The function builds
the text of `weekly_menu.csv`; the model returns that text, or `none` where the
JavaScript would throw.
-/

namespace Menu

/-- One meal of a day of the generated menu: the fields read at lines 128-129. -/
structure Meal where
  time : String
  items : List String
deriving DecidableEq, Repr

/-- One day of the generated menu: the fields read at lines 116 and 127-128. -/
structure DayMenu where
  day : String
  meals : List Meal
deriving DecidableEq, Repr

/-- Platform call `Array.prototype.join` on an array of strings. -/
def join (sep : String) : List String → String
  | [] => ""
  | [x] => x
  | x :: y :: rest => x ++ sep ++ join sep (y :: rest)

/-- The double-quote character. -/
def dquoteChar : Char := Char.ofNat 34

/-- The comma character. -/
def commaChar : Char := Char.ofNat 44

/-- The one-character string holding a double quote. -/
def dquote : String := String.singleton dquoteChar

/-- The array `mealTimes` of line 115. -/
def mealTimes : List String := ["Breakfast", "Lunch", "Evening Snacks", "Dinner"]

/-- The inner `days.forEach` of lines 126-131: the cells pushed to `row`, one
per day name, in order.  Reading `dayData.meals` throws when `find` returned
`undefined`; that is `none`. -/
def rowCells (newMenuData : List DayMenu) (mealTime : String) :
    List String → Option (List String)
  | [] => some []
  | day :: rest =>
    match newMenuData.find? (fun d => decide (d.day = day)) with
    | none => none
    | some dayData =>
      let items : String :=
        match dayData.meals.find? (fun m => decide (m.time = mealTime)) with
        | some meal => join "; " meal.items
        | none => ""
      (rowCells newMenuData mealTime rest).map
        (fun cells => (dquote ++ items ++ dquote) :: cells)

/-- The body of `mealTimes.forEach`, lines 123-133, up to `row.join(',')`. -/
def menuRow (newMenuData : List DayMenu) (days : List String) (mealTime : String) :
    Option String :=
  (rowCells newMenuData mealTime days).map (fun cells => join "," (mealTime :: cells))

/-- Source `handleDownloadNewMenu`, lines 113-134: the value of `csvContent`
handed to the `Blob` of line 137. -/
def handleDownloadNewMenu (newMenuData : List DayMenu) : Option String :=
  let days := newMenuData.map (fun day => day.day)
  let csvContent := join "\n" ["Meal Time," ++ join "," days]
  mealTimes.foldlM
    (fun csv mealTime =>
      (menuRow newMenuData days mealTime).map (fun row => csv ++ "\n" ++ row))
    csvContent

/-- Specification side: the scanner behind quoted-CSV splitting.  A double
quote opens or closes a quoted stretch and is not part of the field; a comma
outside quotes ends the field; every other character, commas inside quotes
included, belongs to the field.  `cur` holds the field read so far, reversed. -/
def splitFields : List Char → Bool → List Char → List (List Char)
  | [], _, cur => [cur.reverse]
  | c :: cs, quoted, cur =>
    if c = dquoteChar then splitFields cs (!quoted) cur
    else if c = commaChar ∧ quoted = false then cur.reverse :: splitFields cs false []
    else splitFields cs quoted (c :: cur)

/-- Specification side: the fields of one CSV row under quoted-CSV splitting. -/
def splitCSV (row : String) : List String :=
  (splitFields row.data false []).map String.mk

/-- Specification side: the text of the cell of one day for one meal time: the
items of that day's meal with that time joined by "; ", empty when the day has
no such meal. -/
def cellText (day : DayMenu) (mealTime : String) : String :=
  match day.meals.find? (fun m => decide (m.time = mealTime)) with
  | some meal => join "; " meal.items
  | none => ""

/-- Specification side: the row of one meal time: the label, then one
double-quoted cell per day, separated by commas. -/
def expectedRow (menu : List DayMenu) (mealTime : String) : String :=
  join "," (mealTime :: menu.map (fun d => dquote ++ cellText d mealTime ++ dquote))

/-- No item of the menu contains a double quote. -/
def NoQuoteInItems (menu : List DayMenu) : Prop :=
  ∀ d ∈ menu, ∀ m ∈ d.meals, ∀ i ∈ m.items, dquoteChar ∉ i.data

/-- A menu listing Monday twice, with different breakfasts. -/
def twoMondays : List DayMenu :=
  [⟨"Monday", [⟨"Breakfast", ["Poha", "Tea"]⟩]⟩,
   ⟨"Monday", [⟨"Breakfast", ["Idli"]⟩]⟩]

/-- A menu of two days; one item holds a comma, and Tuesday has no lunch. -/
def twoDays : List DayMenu :=
  [⟨"Monday", [⟨"Breakfast", ["Poha, with lemon", "Tea"]⟩, ⟨"Lunch", ["Dal"]⟩]⟩,
   ⟨"Tuesday", [⟨"Breakfast", ["Idli"]⟩]⟩]

end Menu

/-! # Properties -/

namespace Attendence

/-! ## What each handler does to the React state -/

@[simp] theorem render_st (w : World) : (render w).st = w.st := by
  unfold render
  split
  · rfl
  · split <;> rfl

@[simp] theorem render_running (w : World) : (render w).running = w.running := by
  unfold render
  split
  · rfl
  · split <;> rfl

@[simp] theorem alert_st (m : String) (w : World) : (alert m w).st = w.st := rfl

@[simp] theorem alert_running (m : String) (w : World) : (alert m w).running = w.running := rfl

@[simp] theorem send_st (rq : Request) (w : World) : (send rq w).st = w.st := rfl

@[simp] theorem send_running (rq : Request) (w : World) : (send rq w).running = w.running := rfl

theorem stopCamera_st (c : Option Nat) (w : World) :
    (stopCamera c w).st = { w.st with stream := none } := by
  cases c <;> rfl

theorem handleCaptureRegisterPhoto_st (f : Frame) (w : World) :
    (handleCaptureRegisterPhoto f w).st = w.st ∨
    (handleCaptureRegisterPhoto f w).st =
      { w.st with capturedImages := w.st.capturedImages ++ [toDataURL f] } := by
  unfold handleCaptureRegisterPhoto captureFrame
  cases w.videoRef with
  | none => exact Or.inl rfl
  | some v =>
    by_cases h : toDataURL f = ""
    · left; simp [h]
    · right; simp [h]

theorem handleCaptureRecognizePhoto_st (f : Frame) (w : World) :
    (handleCaptureRecognizePhoto f w).st = w.st ∨
    (handleCaptureRecognizePhoto f w).st = { w.st with recognizeImage := toDataURL f } := by
  unfold handleCaptureRecognizePhoto captureFrame
  cases w.videoRef with
  | none => exact Or.inl rfl
  | some v =>
    by_cases h : toDataURL f = ""
    · left; simp [h]
    · right; simp [h]

theorem handleRegisterFacesBegin_st (w : World) :
    (handleRegisterFacesBegin w).1.st = w.st := by
  unfold handleRegisterFacesBegin
  split_ifs <;> rfl

theorem handleRecognizeFaceBegin_st (w : World) :
    (handleRecognizeFaceBegin w).1.st = w.st ∨
    (handleRecognizeFaceBegin w).1.st = { w.st with recognizeResult := "Recognizing..." } := by
  unfold handleRecognizeFaceBegin
  split_ifs
  · exact Or.inl rfl
  · exact Or.inr rfl

theorem handleMarkAttendanceBegin_st (w : World) :
    (handleMarkAttendanceBegin w).1.st = w.st := by
  unfold handleMarkAttendanceBegin
  split_ifs <;> rfl

theorem handleMarkAttendanceResume_st (o : Outcome StatusReply) (w : World) :
    (handleMarkAttendanceResume o w).1.st = w.st := by
  unfold handleMarkAttendanceResume
  cases o with
  | failed => rfl
  | reply d => by_cases h : d.status = "ok" <;> simp [h]

theorem handleRecognizeFaceResume_view (o : Outcome RecognizeReply) (w : World) :
    (handleRecognizeFaceResume o w).st.view = w.st.view ∧
    (handleRecognizeFaceResume o w).st.stream = w.st.stream := by
  unfold handleRecognizeFaceResume
  cases o with
  | failed => exact ⟨rfl, rfl⟩
  | reply d =>
    by_cases h : d.status = "ok" <;> by_cases h2 : d.recognized = true <;> simp [h, h2]

theorem fetchAttendanceStatusResume_view (o : Outcome AttendanceReply) (w : World) :
    (fetchAttendanceStatusResume o w).st.view = w.st.view ∧
    (fetchAttendanceStatusResume o w).st.stream = w.st.stream := by
  unfold fetchAttendanceStatusResume
  cases o with
  | failed => exact ⟨rfl, rfl⟩
  | reply d => by_cases h : d.status = "ok" <;> simp [h]

theorem handleRegisterFacesResume_view (c : Option Nat) (o : Outcome StatusReply) (w : World) :
    (handleRegisterFacesResume c o w).st = w.st ∨
    ((handleRegisterFacesResume c o w).st.view = .home ∧
     (handleRegisterFacesResume c o w).st.stream = none) := by
  unfold handleRegisterFacesResume
  cases o with
  | failed => exact Or.inl rfl
  | reply d =>
    by_cases h : d.status = "ok"
    · right; simp [h, stopCamera_st]
    · left; simp [h]

/-- One event keeps "no stream in the home view", provided a granted
acquisition does not settle in the home view. -/
theorem step_home_no_stream (w : World) (e : Event)
    (hinv : w.st.view = .home → w.st.stream = none)
    (hg : e = .cameraSettled .granted → w.st.view ≠ .home) :
    (step w e).st.view = .home → (step w e).st.stream = none := by
  unfold step
  rw [render_st]
  cases e <;> simp only [dispatch]
  case homeButton => intro _; simp [handleHome, stopCamera_st]
  case startRegister => intro h; simp [handleStartRegister, startCameraBegin] at h
  case startRecognize => intro h; simp [handleStartRecognize, startCameraBegin] at h
  case cameraSettled o =>
    split_ifs
    · exact hinv
    · cases o with
      | granted => intro h; exact absurd h (hg rfl)
      | denied => exact hinv
  case captureRegisterPhoto f =>
    split_ifs
    · rcases handleCaptureRegisterPhoto_st f w with h | h <;> rw [h] <;> exact hinv
    · exact hinv
  case clearCaptured => split_ifs <;> exact hinv
  case stopRegisterCamera =>
    split_ifs
    · intro _; simp [handleStopRegisterCamera, stopCamera_st]
    · exact hinv
  case nameInput v => split_ifs <;> exact hinv
  case rollInput v => split_ifs <;> exact hinv
  case registerFaces =>
    split_ifs
    · have h := handleRegisterFacesBegin_st w
      rcases hp : handleRegisterFacesBegin w with ⟨w1, _ | rq⟩ <;> rw [hp] at h <;>
        simp only [send_st] at h ⊢ <;> rw [h] <;> exact hinv
    · exact hinv
  case registerReply i o =>
    split
    · exact hinv
    · rename_i c _
      rcases handleRegisterFacesResume_view c o
        { w with registerPending := w.registerPending.eraseIdx i } with h | h
      · rw [h]; exact hinv
      · intro _; exact h.2
  case captureRecognizePhoto f =>
    split_ifs
    · rcases handleCaptureRecognizePhoto_st f w with h | h <;> rw [h] <;> exact hinv
    · exact hinv
  case stopRecognizeCamera =>
    split_ifs
    · intro _; simp [handleStopRecognizeCamera, stopCamera_st]
    · exact hinv
  case recognizeFace =>
    split_ifs
    · have h := handleRecognizeFaceBegin_st w
      rcases hp : handleRecognizeFaceBegin w with ⟨w1, _ | rq⟩ <;> rw [hp] at h <;>
        simp only [send_st] at h ⊢ <;> rcases h with h | h <;> rw [h] <;> exact hinv
    · exact hinv
  case recognizeReply o =>
    split_ifs
    · exact hinv
    · have h := handleRecognizeFaceResume_view o
        { w with recognizePending := w.recognizePending - 1 }
      rw [h.1, h.2]; exact hinv
  case markAttendance =>
    split_ifs
    · have h := handleMarkAttendanceBegin_st w
      rcases hp : handleMarkAttendanceBegin w with ⟨w1, _ | rq⟩ <;> rw [hp] at h <;>
        simp only [send_st] at h ⊢ <;> rw [h] <;> exact hinv
    · exact hinv
  case markReply o =>
    split_ifs
    · exact hinv
    · have h := handleMarkAttendanceResume_st o { w with markPending := w.markPending - 1 }
      rcases hp : handleMarkAttendanceResume o { w with markPending := w.markPending - 1 }
        with ⟨w1, _ | _⟩ <;> rw [hp] at h <;>
        simp only [send_st] at h ⊢ <;> rw [h] <;> exact hinv
  case refresh => split_ifs <;> exact hinv
  case statusReply o =>
    split_ifs
    · exact hinv
    · have h := fetchAttendanceStatusResume_view o
        { w with statusPending := w.statusPending - 1 }
      rw [h.1, h.2]; exact hinv


/-- The invariant "no stream in the home view" along a trace whose granted
acquisitions all settle outside the home view. -/
theorem run_home_no_stream (evs : List Event) :
    ∀ w : World, (w.st.view = .home → w.st.stream = none) → grantsInView w evs = true →
      ((run w evs).st.view = .home → (run w evs).st.stream = none) := by
  induction evs with
  | nil => intro w hinv _; exact hinv
  | cons e es ih =>
    intro w hinv hg
    simp only [grantsInView, Bool.and_eq_true, decide_eq_true_eq] at hg
    exact ih (step w e) (step_home_no_stream w e hinv hg.1) hg.2

/-! ## C1: camera stream and view -/

/-- C1, refuted as stated: after start register, a granted acquisition and
Stop Camera, the view is still register and no stream is held, so "a stream is
held iff the view is register or recognize" fails in a reachable state.  The
other direction fails too when an acquisition settles after Home was pressed:
the stream is then held in the home view. -/
theorem stream_iff_camera_view_refuted :
    ((run init [.startRegister, .cameraSettled .granted, .stopRegisterCamera]).st.view
        = .register ∧
      (run init [.startRegister, .cameraSettled .granted, .stopRegisterCamera]).st.stream
        = none) ∧
    ((run init [.startRegister, .homeButton, .cameraSettled .granted]).st.view = .home ∧
      (run init [.startRegister, .homeButton, .cameraSettled .granted]).st.stream
        = some 0) := by
  decide

/-- C1, amended: in every state reachable from the initial session by a trace
of events in which no camera acquisition succeeds while the home view is
shown, a held camera stream implies that the view is register or recognize. -/
theorem stream_held_only_in_camera_views (evs : List Event)
    (hg : grantsInView init evs = true) (hs : (run init evs).st.stream ≠ none) :
    (run init evs).st.view = .register ∨ (run init evs).st.view = .recognize := by
  have h := run_home_no_stream evs init (fun _ => rfl) hg
  cases hv : (run init evs).st.view with
  | home => exact absurd (h hv) hs
  | register => exact Or.inl rfl
  | recognize => exact Or.inr rfl

/-- C1, amended, on a concrete trace: register, camera granted, one photo,
Home, recognize, camera granted. -/
theorem stream_held_only_in_camera_views_witness :
    (run init [.startRegister, .cameraSettled .granted,
        .captureRegisterPhoto ⟨640, 480, "AAAA"⟩, .homeButton, .startRecognize,
        .cameraSettled .granted]).st.view = .register ∨
    (run init [.startRegister, .cameraSettled .granted,
        .captureRegisterPhoto ⟨640, 480, "AAAA"⟩, .homeButton, .startRecognize,
        .cameraSettled .granted]).st.view = .recognize :=
  stream_held_only_in_camera_views _ (by decide) (by decide)


/-! ## C2-C4: submitting an enrollment -/

/-- The continuation of `handleRegisterFaces` reads only the React state and
the running streams of the world it resumes in. -/
theorem handleRegisterFacesResume_congr (c : Option Nat) (o : Outcome StatusReply)
    (w1 w2 : World) (hst : w1.st = w2.st) (hrun : w1.running = w2.running) :
    (handleRegisterFacesResume c o w1).st = (handleRegisterFacesResume c o w2).st ∧
    (handleRegisterFacesResume c o w1).running
      = (handleRegisterFacesResume c o w2).running := by
  unfold handleRegisterFacesResume
  cases o with
  | failed => exact ⟨hst, hrun⟩
  | reply d =>
    by_cases h : d.status = "ok"
    · simp only [h, if_true]
      cases c <;> simp [stopCamera, alert, hst, hrun]
    · simp only [h, if_false]
      exact ⟨hst, hrun⟩

/-- A Register click that passes validation, followed at once by the reply to
the request it sent, is `handleRegisterFaces` as far as the React state and
the running streams go. -/
theorem run_registerFaces_reply (w : World) (o : Outcome StatusReply)
    (hv : w.st.view = .register) (hn : w.st.studentName ≠ "")
    (hr : w.st.studentRoll ≠ "") (hi : w.st.capturedImages ≠ []) :
    (run w [.registerFaces, .registerReply w.registerPending.length o]).st
      = (handleRegisterFaces w o).st ∧
    (run w [.registerFaces, .registerReply w.registerPending.length o]).running
      = (handleRegisterFaces w o).running := by
  have hb : handleRegisterFacesBegin w =
      (w, some (.registerFaces w.st.studentName w.st.studentRoll w.st.capturedImages)) := by
    unfold handleRegisterFacesBegin
    have hl : w.st.capturedImages.length ≠ 0 := by
      intro h0; exact hi (List.length_eq_zero.mp h0)
    simp [hn, hr, hl]
  have h1 : (step w .registerFaces).registerPending = w.registerPending ++ [w.st.stream] := by
    simp only [step, dispatch, hv, if_true, hb]
    unfold render
    split
    · rfl
    · split <;> rfl
  have h2 : (step w .registerFaces).st = w.st ∧ (step w .registerFaces).running = w.running := by
    simp only [step, dispatch, hv, if_true, hb, render_st, render_running]
    exact ⟨rfl, rfl⟩
  have hrun : run w [.registerFaces, .registerReply w.registerPending.length o]
      = step (step w .registerFaces) (.registerReply w.registerPending.length o) := rfl
  rw [hrun]
  generalize step w .registerFaces = w1 at h1 h2
  unfold step
  rw [render_st, render_running]
  simp only [dispatch, h1, List.get?_eq_getElem?, List.getElem?_concat_length]
  simp only [handleRegisterFaces, hb]
  exact handleRegisterFacesResume_congr _ _ _ _ h2.1 h2.2


/-- C2: when the student name is empty, the roll is empty, or no image has been
captured, `handleRegisterFaces` reaches no `fetch`: the synchronous part yields
no request, and whatever the gateway would answer, the React state (view,
buffer, fields, stream), the running streams, the video element and the list
of sent requests are what they were; the Register click sends nothing and
leaves no request in flight. -/
theorem handleRegisterFaces_rejects_empty (w : World)
    (h : w.st.studentName = "" ∨ w.st.studentRoll = "" ∨ w.st.capturedImages = []) :
    (handleRegisterFacesBegin w).2 = none ∧
    (∀ o : Outcome StatusReply,
      (handleRegisterFaces w o).st = w.st ∧
      (handleRegisterFaces w o).requests = w.requests ∧
      (handleRegisterFaces w o).running = w.running ∧
      (handleRegisterFaces w o).videoRef = w.videoRef) ∧
    (dispatch w .registerFaces).st = w.st ∧
    (dispatch w .registerFaces).requests = w.requests ∧
    (dispatch w .registerFaces).registerPending = w.registerPending := by
  have hb : handleRegisterFacesBegin w = (alert "Please enter name and roll!" w, none) ∨
      handleRegisterFacesBegin w = (alert "No captured images to register!" w, none) := by
    unfold handleRegisterFacesBegin
    by_cases h1 : w.st.studentName = "" ∨ w.st.studentRoll = ""
    · left; simp [h1]
    · right
      have h2 : w.st.capturedImages = [] := by
        rcases h with h | h | h
        · exact absurd (Or.inl h) h1
        · exact absurd (Or.inr h) h1
        · exact h
      simp [h1, h2]
  rcases hb with hb | hb
  all_goals
    refine ⟨by rw [hb], fun o => ?_, ?_⟩
    · simp only [handleRegisterFaces, hb]
      exact ⟨rfl, rfl, rfl, rfl⟩
    · simp only [dispatch, hb]
      split_ifs <;> exact ⟨rfl, rfl, rfl⟩

/-- C2 on a concrete state: two photos and a name, but no roll. -/
theorem handleRegisterFaces_rejects_empty_witness :
    (handleRegisterFacesBegin (handleRollInput "" scenarioA)).2 = none ∧
    (dispatch (handleRollInput "" scenarioA) .registerFaces).requests
      = [.attendanceStatus] :=
  ⟨(handleRegisterFaces_rejects_empty (handleRollInput "" scenarioA)
      (Or.inr (Or.inl rfl))).1,
   (handleRegisterFaces_rejects_empty (handleRollInput "" scenarioA)
      (Or.inr (Or.inl rfl))).2.2.2.1⟩

/-- C3: in the register view with a non-empty name, a non-empty roll and at
least one captured image, `handleRegisterFaces` sends the name, the roll and
the images, and when the reply has status "ok" the resulting state has view
home, an empty buffer, empty name and roll fields and no stream, and the
tracks of the stream that was held are no longer running.  The Register click
followed by that reply, as two events, ends in the same React state with the
same running streams. -/
theorem handleRegisterFaces_ok_resets (w : World) (d : StatusReply)
    (hv : w.st.view = .register) (hn : w.st.studentName ≠ "")
    (hr : w.st.studentRoll ≠ "") (hi : w.st.capturedImages ≠ [])
    (hok : d.status = "ok") :
    (handleRegisterFaces w (.reply d)).requests =
      w.requests ++ [.registerFaces w.st.studentName w.st.studentRoll w.st.capturedImages] ∧
    (handleRegisterFaces w (.reply d)).st.view = .home ∧
    (handleRegisterFaces w (.reply d)).st.capturedImages = [] ∧
    (handleRegisterFaces w (.reply d)).st.studentName = "" ∧
    (handleRegisterFaces w (.reply d)).st.studentRoll = "" ∧
    (handleRegisterFaces w (.reply d)).st.stream = none ∧
    (∀ s, w.st.stream = some s → s ∉ (handleRegisterFaces w (.reply d)).running) ∧
    (run w [.registerFaces, .registerReply w.registerPending.length (.reply d)]).st
      = (handleRegisterFaces w (.reply d)).st ∧
    (run w [.registerFaces, .registerReply w.registerPending.length (.reply d)]).running
      = (handleRegisterFaces w (.reply d)).running := by
  have hev := run_registerFaces_reply w (.reply d) hv hn hr hi
  have hb : handleRegisterFacesBegin w =
      (w, some (.registerFaces w.st.studentName w.st.studentRoll w.st.capturedImages)) := by
    unfold handleRegisterFacesBegin
    have hl : w.st.capturedImages.length ≠ 0 := by
      intro h0; exact hi (List.length_eq_zero.mp h0)
    simp [hn, hr, hl]
  refine ⟨?_, ?_, ?_, ?_, ?_, ?_, ?_, hev.1, hev.2⟩
  all_goals simp only [handleRegisterFaces, hb, handleRegisterFacesResume, hok, if_true]
  all_goals first
    | (cases w.st.stream <;> rfl)
    | (intro s hs; rw [hs]; simp [stopCamera, alert, send])

/-- C3 on scenario A: two photos, name Asha, roll 101, reply "ok". -/
theorem handleRegisterFaces_ok_resets_witness :
    (handleRegisterFaces scenarioA (.reply ⟨"ok", "Registered Asha"⟩)).st.view = .home ∧
    (handleRegisterFaces scenarioA (.reply ⟨"ok", "Registered Asha"⟩)).st.capturedImages
      = [] ∧
    (handleRegisterFaces scenarioA (.reply ⟨"ok", "Registered Asha"⟩)).st.stream = none ∧
    (0 ∉ (handleRegisterFaces scenarioA (.reply ⟨"ok", "Registered Asha"⟩)).running) :=
  have h := handleRegisterFaces_ok_resets scenarioA ⟨"ok", "Registered Asha"⟩
    (by decide) (by decide) (by decide) (by decide) rfl
  ⟨h.2.1, h.2.2.1, h.2.2.2.2.2.1, h.2.2.2.2.2.2.1 0 (by decide)⟩

/-- C4: when the reply to `/register-faces` has a status other than "ok", or
the request fails in transport or parsing, `handleRegisterFaces` leaves the
session as it was before the submit: the React state (view, buffer, name,
roll, stream), the running streams and the video element are unchanged.  The
same holds for the continuation in whatever world the reply arrives. -/
theorem handleRegisterFaces_failure_keeps_session (w : World) (o : Outcome StatusReply)
    (h : ∀ d, o = .reply d → d.status ≠ "ok") :
    ((handleRegisterFaces w o).st = w.st ∧
      (handleRegisterFaces w o).running = w.running ∧
      (handleRegisterFaces w o).videoRef = w.videoRef) ∧
    (∀ (c : Option Nat) (w2 : World),
      (handleRegisterFacesResume c o w2).st = w2.st ∧
      (handleRegisterFacesResume c o w2).running = w2.running ∧
      (handleRegisterFacesResume c o w2).videoRef = w2.videoRef) := by
  have hres : ∀ (c : Option Nat) (w2 : World),
      (handleRegisterFacesResume c o w2).st = w2.st ∧
      (handleRegisterFacesResume c o w2).running = w2.running ∧
      (handleRegisterFacesResume c o w2).videoRef = w2.videoRef := by
    intro c w2
    unfold handleRegisterFacesResume
    cases o with
    | failed => exact ⟨rfl, rfl, rfl⟩
    | reply d =>
      have hd : d.status ≠ "ok" := h d rfl
      simp only [hd, if_false]
      exact ⟨rfl, rfl, rfl⟩
  refine ⟨?_, hres⟩
  unfold handleRegisterFaces
  rcases hp : handleRegisterFacesBegin w with ⟨w1, _ | rq⟩
  · have hst := handleRegisterFacesBegin_st w
    have hb : (handleRegisterFacesBegin w).1.running = w.running ∧
        (handleRegisterFacesBegin w).1.videoRef = w.videoRef := by
      unfold handleRegisterFacesBegin
      split_ifs <;> exact ⟨rfl, rfl⟩
    rw [hp] at hst hb
    exact ⟨hst, hb.1, hb.2⟩
  · have hst := handleRegisterFacesBegin_st w
    have hb : (handleRegisterFacesBegin w).1.running = w.running ∧
        (handleRegisterFacesBegin w).1.videoRef = w.videoRef := by
      unfold handleRegisterFacesBegin
      split_ifs <;> exact ⟨rfl, rfl⟩
    rw [hp] at hst hb
    have h3 := hres w.st.stream (send rq w1)
    simp only [] at hst hb ⊢
    rw [h3.1, h3.2.1, h3.2.2]
    exact ⟨hst, hb.1, hb.2⟩

/-- C4 on scenario D: the gateway answers status "error", "duplicate roll". -/
theorem handleRegisterFaces_failure_keeps_session_witness :
    (handleRegisterFaces scenarioA (.reply ⟨"error", "duplicate roll"⟩)).st
      = scenarioA.st :=
  (handleRegisterFaces_failure_keeps_session scenarioA
    (.reply ⟨"error", "duplicate roll"⟩)
    (fun d hd => by cases hd; decide)).1.1

/-! ## C5: the enrollment buffer -/

/-- The data URL of a canvas is never the empty string, so `if (frame)` holds
for every frame `captureFrame` returns. -/
theorem toDataURL_ne_empty (f : Frame) : toDataURL f ≠ "" := by
  unfold toDataURL
  split_ifs
  · decide
  · intro h
    have hl := congrArg String.length h
    rw [String.length_append] at hl
    have h0 : "data:image/jpeg;base64,".length = 23 := by decide
    rw [h0] at hl
    have h1 : "".length = 0 := by decide
    rw [h1] at hl
    omega

/-- Capture Photo in the register view with the video element mounted appends
the data URL of the frame. -/
theorem step_capture_register (w : World) (f : Frame)
    (hv : w.st.view = .register) (hm : w.videoRef ≠ none) :
    (step w (.captureRegisterPhoto f)).st
      = { w.st with capturedImages := w.st.capturedImages ++ [toDataURL f] } ∧
    (step w (.captureRegisterPhoto f)).videoRef ≠ none := by
  have hd : dispatch w (.captureRegisterPhoto f)
      = { w with st := { w.st with capturedImages := w.st.capturedImages ++ [toDataURL f] } } := by
    simp only [dispatch, hv, if_true, handleCaptureRegisterPhoto, captureFrame]
    cases hr : w.videoRef with
    | none => exact absurd hr hm
    | some v => simp [toDataURL_ne_empty]
  unfold step
  rw [hd]
  constructor
  · rw [render_st]
  · unfold render
    simp only [hv]
    cases hr : w.videoRef with
    | none => exact absurd hr hm
    | some v => simp

/-- Clear Photos in the register view empties the buffer. -/
theorem step_clear_captured (w : World)
    (hv : w.st.view = .register) (hm : w.videoRef ≠ none) :
    (step w .clearCaptured).st = { w.st with capturedImages := [] } ∧
    (step w .clearCaptured).videoRef ≠ none := by
  have hd : dispatch w .clearCaptured = { w with st := { w.st with capturedImages := [] } } := by
    simp only [dispatch, hv, if_true, handleClearCaptured]
  unfold step
  rw [hd]
  constructor
  · rw [render_st]
  · unfold render
    simp only [hv]
    cases hr : w.videoRef with
    | none => exact absurd hr hm
    | some v => simp

/-- The events since the last reset, after one more event. -/
theorem sinceLastReset_concat (xs : List Event) (x : Event) :
    sinceLastReset (xs ++ [x])
      = if x.resetsBuffer = true then [] else sinceLastReset xs ++ [x] := by
  unfold sinceLastReset
  by_cases h : x.resetsBuffer = true
  · simp [h, List.takeWhile]
  · simp [h, List.takeWhile]

/-- After rendering, a view other than home has its video element mounted. -/
theorem render_mounted (w : World) (h : w.st.view ≠ .home) : (render w).videoRef ≠ none := by
  unfold render
  cases hv : w.st.view with
  | home => exact absurd hv h
  | register => cases hr : w.videoRef <;> simp [hr]
  | recognize => cases hr : w.videoRef <;> simp [hr]

/-- The continuation of `handleRecognizeFace` leaves the view and the
enrollment buffer alone. -/
theorem handleRecognizeFaceResume_buffer (o : Outcome RecognizeReply) (w : World) :
    (handleRecognizeFaceResume o w).st.view = w.st.view ∧
    (handleRecognizeFaceResume o w).st.capturedImages = w.st.capturedImages := by
  unfold handleRecognizeFaceResume
  cases o with
  | failed => exact ⟨rfl, rfl⟩
  | reply d =>
    by_cases h : d.status = "ok" <;> by_cases h2 : d.recognized = true <;> simp [h, h2]

/-- The continuation of `fetchAttendanceStatus` leaves the view and the
enrollment buffer alone. -/
theorem fetchAttendanceStatusResume_buffer (o : Outcome AttendanceReply) (w : World) :
    (fetchAttendanceStatusResume o w).st.view = w.st.view ∧
    (fetchAttendanceStatusResume o w).st.capturedImages = w.st.capturedImages := by
  unfold fetchAttendanceStatusResume
  cases o with
  | failed => exact ⟨rfl, rfl⟩
  | reply d => by_cases h : d.status = "ok" <;> simp [h]

/-- In the register view with the video element mounted, an event that does
not leave the view keeps the view, and the enrollment buffer is emptied by a
reset, grown by the data URL of a capture, and untouched by anything else. -/
theorem dispatch_register_buffer (w : World) (e : Event)
    (hv : w.st.view = .register) (hm : w.videoRef ≠ none)
    (he : e.leavesRegister = false) :
    (dispatch w e).st.view = .register ∧
    (dispatch w e).st.capturedImages
      = if e.resetsBuffer = true then []
        else w.st.capturedImages ++ (capturedDataURL e).toList := by
  have hsame : ∀ w2 : World, w2.st.view = w.st.view →
      w2.st.capturedImages = w.st.capturedImages →
      w2.st.view = .register ∧ w2.st.capturedImages = w.st.capturedImages ++ [] := by
    intro w2 h1 h2
    exact ⟨h1.trans hv, by rw [h2, List.append_nil]⟩
  have hrec : ¬ w.st.view = .recognize := by rw [hv]; decide
  cases e <;>
    simp only [dispatch, Event.resetsBuffer, capturedDataURL, Option.toList, if_true,
      Bool.false_eq_true, if_false]
  case homeButton => simp [Event.leavesRegister] at he
  case startRegister => exact ⟨rfl, rfl⟩
  case startRecognize => simp [Event.leavesRegister] at he
  case cameraSettled o =>
    split_ifs
    · exact hsame _ rfl rfl
    · cases o <;> exact hsame _ rfl rfl
  case captureRegisterPhoto f =>
    have h := (step_capture_register w f hv hm).1
    unfold step at h
    rw [render_st] at h
    simp only [dispatch] at h
    rw [h]
    exact ⟨hv, rfl⟩
  case clearCaptured =>
    rw [if_pos hv]
    exact ⟨hv, rfl⟩
  case stopRegisterCamera =>
    rw [if_pos hv]
    simp only [handleStopRegisterCamera, stopCamera_st]
    exact ⟨hv, by rw [List.append_nil]⟩
  case nameInput v => rw [if_pos hv]; exact hsame _ rfl rfl
  case rollInput v => rw [if_pos hv]; exact hsame _ rfl rfl
  case registerFaces =>
    rw [if_pos hv]
    have h := handleRegisterFacesBegin_st w
    rcases hp : handleRegisterFacesBegin w with ⟨w1, _ | rq⟩ <;> rw [hp] at h <;>
      simp only [send_st] at h ⊢ <;> rw [h] <;> exact hsame w rfl rfl
  case registerReply i o =>
    split
    · exact hsame _ rfl rfl
    · unfold handleRegisterFacesResume
      cases o with
      | failed => exact hsame _ rfl rfl
      | reply d =>
        have hd : d.status ≠ "ok" := by
          simpa [Event.leavesRegister] using he
        simp only [hd, if_false]
        exact hsame _ rfl rfl
  case captureRecognizePhoto f => rw [if_neg hrec]; exact hsame _ rfl rfl
  case stopRecognizeCamera => rw [if_neg hrec]; exact hsame _ rfl rfl
  case recognizeFace => rw [if_neg hrec]; exact hsame _ rfl rfl
  case recognizeReply o =>
    split_ifs
    · exact hsame _ rfl rfl
    · have h := handleRecognizeFaceResume_buffer o
        { w with recognizePending := w.recognizePending - 1 }
      exact hsame _ h.1 h.2
  case markAttendance => rw [if_neg hrec]; exact hsame _ rfl rfl
  case markReply o =>
    split_ifs
    · exact hsame _ rfl rfl
    · have h := handleMarkAttendanceResume_st o { w with markPending := w.markPending - 1 }
      rcases hp : handleMarkAttendanceResume o { w with markPending := w.markPending - 1 }
        with ⟨w1, _ | _⟩ <;> rw [hp] at h <;>
        simp only [send_st] at h ⊢ <;> rw [h] <;> exact hsame w rfl rfl
  case refresh => rw [if_pos hv]; exact hsame _ rfl rfl
  case statusReply o =>
    split_ifs
    · exact hsame _ rfl rfl
    · have h := fetchAttendanceStatusResume_buffer o
        { w with statusPending := w.statusPending - 1 }
      exact hsame _ h.1 h.2

/-- The buffer along a trace that stays in the register view. -/
theorem run_register_buffer (w : World) (hv : w.st.view = .register)
    (hm : w.videoRef ≠ none) (hb : w.st.capturedImages = []) (evs : List Event)
    (hstay : ∀ e ∈ evs, e.leavesRegister = false) :
    (run w evs).st.view = .register ∧ (run w evs).videoRef ≠ none ∧
    (run w evs).st.capturedImages = dataURLsSinceReset evs := by
  induction evs using List.reverseRecOn with
  | nil => exact ⟨hv, hm, hb⟩
  | append_singleton xs x ih =>
    obtain ⟨ihv, ihm, ihb⟩ := ih (fun e he => hstay e (List.mem_append_left _ he))
    have hx : x.leavesRegister = false := hstay x (by simp)
    have hrun : run w (xs ++ [x]) = step (run w xs) x := by simp [run, List.foldl_append]
    have hd := dispatch_register_buffer (run w xs) x ihv ihm hx
    rw [hrun]
    unfold step
    refine ⟨by rw [render_st]; exact hd.1, render_mounted _ (by rw [hd.1]; decide), ?_⟩
    rw [render_st, hd.2, ihb]
    unfold dataURLsSinceReset
    rw [sinceLastReset_concat]
    by_cases hr : x.resetsBuffer = true
    · simp [hr]
    · simp only [hr, if_false, List.filterMap_append]
      cases hc : capturedDataURL x <;> simp [hc, List.filterMap]

/-- One data URL per capture-photo event. -/
theorem length_capturedDataURL (l : List Event) :
    (l.filterMap capturedDataURL).length = l.countP Event.isRegisterCapture := by
  induction l with
  | nil => rfl
  | cons e es ih =>
    cases e <;> simp [List.filterMap_cons, List.countP_cons, capturedDataURL,
      Event.isRegisterCapture, ih]

/-- One frame per successful capture. -/
theorem length_specCapturedFrame (l : List Event) :
    (l.filterMap specCapturedFrame).length
      = l.countP (fun e => (specCapturedFrame e).isSome) := by
  induction l with
  | nil => rfl
  | cons e es ih =>
    cases hc : specCapturedFrame e <;> simp [List.filterMap_cons, List.countP_cons, hc, ih]

/-- When every capture has live dimensions, the data URLs taken are the frames
successfully captured. -/
theorem filterMap_live (l : List Event) (h : l.all Event.captureIsLive = true) :
    l.filterMap capturedDataURL = l.filterMap specCapturedFrame := by
  induction l with
  | nil => rfl
  | cons e es ih =>
    simp only [List.all_cons, Bool.and_eq_true] at h
    have he : capturedDataURL e = specCapturedFrame e := by
      cases e <;> simp [capturedDataURL, specCapturedFrame]
      case captureRegisterPhoto f => simpa [Event.captureIsLive] using h.1
    simp only [List.filterMap_cons, he, ih h.2]

/-- C5, refuted as stated: right after start register, before the camera is
granted, a photo is taken from a video of width and height zero.  The capture
has no live dimensions, so no frame was successfully captured, yet the buffer
holds one entry, the data URL of an empty canvas. -/
theorem zero_size_capture_is_buffered :
    (run (step init .startRegister) [.captureRegisterPhoto ⟨0, 0, ""⟩]).st.capturedImages
      = ["data:,"] ∧
    specFramesSinceReset [.captureRegisterPhoto ⟨0, 0, ""⟩] = [] ∧
    specCapturesSinceReset [.captureRegisterPhoto ⟨0, 0, ""⟩] = 0 := by
  decide

/-- C5, amended: after start register, along every trace of events that stays
in the register view (capture-photo and clear-photos events with camera
grants, keystrokes, Stop Camera, Register clicks and replies between them, but
no Home, no start recognize and no register reply "ok"), the captured-image
buffer is, in capture order, the list of the data URLs of all capture-photo
events since the most recent clear or start register, one per event, a capture
from a video without live dimensions included; its length is the number of
those events.  When every capture since then had live dimensions, the buffer
is the list of the frames successfully captured since then and its length is
the number of those successful captures. -/
theorem capturedImages_eq_captures_since_reset (w : World) (evs : List Event)
    (hstay : ∀ e ∈ evs, e.leavesRegister = false) :
    (run (step w .startRegister) evs).st.capturedImages = dataURLsSinceReset evs ∧
    (run (step w .startRegister) evs).st.capturedImages.length
      = captureEventsSinceReset evs ∧
    (allCapturesLive evs = true →
      (run (step w .startRegister) evs).st.capturedImages = specFramesSinceReset evs ∧
      (run (step w .startRegister) evs).st.capturedImages.length
        = specCapturesSinceReset evs) := by
  have hv : (step w .startRegister).st.view = .register := by
    simp [step, dispatch, handleStartRegister, startCameraBegin]
  have hb : (step w .startRegister).st.capturedImages = [] := by
    simp [step, dispatch, handleStartRegister, startCameraBegin]
  have hm : (step w .startRegister).videoRef ≠ none := by
    unfold step
    exact render_mounted _ (by simp [dispatch, handleStartRegister, startCameraBegin])
  have h := (run_register_buffer (step w .startRegister) hv hm hb evs hstay).2.2
  refine ⟨h, ?_, ?_⟩
  · rw [h]
    exact length_capturedDataURL _
  · intro hl
    have heq : dataURLsSinceReset evs = specFramesSinceReset evs :=
      filterMap_live (sinceLastReset evs) hl
    rw [h, heq]
    exact ⟨rfl, length_specCapturedFrame _⟩

/-- C5, amended, on an enrollment with the camera grant and keystrokes between
the buffer events: the photo taken before Clear Photos is gone and the two
taken after it are in the buffer, in capture order. -/
theorem capturedImages_eq_captures_since_reset_witness :
    (run (step init .startRegister) enrollTrace).st.capturedImages
      = ["data:image/jpeg;base64,BBBB", "data:image/jpeg;base64,CCCC"] ∧
    (run (step init .startRegister) enrollTrace).st.capturedImages
      = specFramesSinceReset enrollTrace ∧
    (run (step init .startRegister) enrollTrace).st.capturedImages.length
      = specCapturesSinceReset enrollTrace :=
  ⟨(capturedImages_eq_captures_since_reset init enrollTrace (by decide)).1.trans (by decide),
   ((capturedImages_eq_captures_since_reset init enrollTrace (by decide)).2.2 (by decide)).1,
   ((capturedImages_eq_captures_since_reset init enrollTrace (by decide)).2.2 (by decide)).2⟩

/-! ## C6: marking attendance needs a recognized subject -/

/-- Rendering sends nothing. -/
@[simp] theorem render_requests (w : World) : (render w).requests = w.requests := by
  unfold render
  split
  · rfl
  · split <;> rfl

/-- Calling `stopCamera` sends nothing. -/
theorem stopCamera_requests (c : Option Nat) (w : World) :
    (stopCamera c w).requests = w.requests := by
  cases c <;> rfl

/-- Capturing an enrollment photo sends nothing. -/
theorem handleCaptureRegisterPhoto_requests (f : Frame) (w : World) :
    (handleCaptureRegisterPhoto f w).requests = w.requests := by
  unfold handleCaptureRegisterPhoto captureFrame
  cases w.videoRef with
  | none => rfl
  | some v => by_cases h : toDataURL f = "" <;> simp [h]

/-- Capturing a recognition photo sends nothing. -/
theorem handleCaptureRecognizePhoto_requests (f : Frame) (w : World) :
    (handleCaptureRecognizePhoto f w).requests = w.requests := by
  unfold handleCaptureRecognizePhoto captureFrame
  cases w.videoRef with
  | none => rfl
  | some v => by_cases h : toDataURL f = "" <;> simp [h]

/-- The continuation of `handleRegisterFaces` sends nothing. -/
theorem handleRegisterFacesResume_requests (c : Option Nat) (o : Outcome StatusReply)
    (w : World) : (handleRegisterFacesResume c o w).requests = w.requests := by
  unfold handleRegisterFacesResume
  cases o with
  | failed => rfl
  | reply d =>
    by_cases h : d.status = "ok"
    · simp only [h, if_true]; cases c <;> rfl
    · simp only [h, if_false]; rfl

/-- The continuation of `handleRecognizeFace` sends nothing. -/
theorem handleRecognizeFaceResume_requests (o : Outcome RecognizeReply) (w : World) :
    (handleRecognizeFaceResume o w).requests = w.requests := by
  unfold handleRecognizeFaceResume
  cases o with
  | failed => rfl
  | reply d =>
    by_cases h : d.status = "ok" <;> by_cases h2 : d.recognized = true <;> simp [h, h2]

/-- The continuation of `fetchAttendanceStatus` sends nothing. -/
theorem fetchAttendanceStatusResume_requests (o : Outcome AttendanceReply) (w : World) :
    (fetchAttendanceStatusResume o w).requests = w.requests := by
  unfold fetchAttendanceStatusResume
  cases o with
  | failed => rfl
  | reply d => by_cases h : d.status = "ok" <;> simp [h]

/-- The requests sent so far only grow, and an event other than a click on
Mark Attendance with a recognized name and roll adds no mark-attendance
request. -/
theorem dispatch_requests (w : World) (e : Event)
    (hn : w.st.recognizedName = "" ∨ w.st.recognizedRoll = "") :
    ∃ new, (dispatch w e).requests = w.requests ++ new ∧ noMarkRequest new := by
  have hnil : ∀ w2 : World, w2.requests = w.requests →
      ∃ new, w2.requests = w.requests ++ new ∧ noMarkRequest new := by
    intro w2 h
    exact ⟨[], by simp [h], fun _ _ hc => by cases hc⟩
  have hone : ∀ (w2 : World) (rq : Request), w2.requests = w.requests ++ [rq] →
      (∀ n r, rq ≠ .markAttendance n r) →
      ∃ new, w2.requests = w.requests ++ new ∧ noMarkRequest new := by
    intro w2 rq h hne
    refine ⟨[rq], h, fun n r hc => ?_⟩
    simp only [List.mem_singleton] at hc
    exact hne n r hc.symm
  cases e <;> simp only [dispatch]
  case homeButton => exact hnil _ (stopCamera_requests _ _)
  case startRegister => exact hnil _ rfl
  case startRecognize => exact hnil _ rfl
  case cameraSettled o =>
    split_ifs
    · exact hnil _ rfl
    · cases o <;> exact hnil _ rfl
  case captureRegisterPhoto f =>
    split_ifs
    · exact hnil _ (handleCaptureRegisterPhoto_requests f w)
    · exact hnil _ rfl
  case clearCaptured => split_ifs <;> exact hnil _ rfl
  case stopRegisterCamera =>
    split_ifs
    · exact hnil _ (stopCamera_requests _ _)
    · exact hnil _ rfl
  case nameInput v => split_ifs <;> exact hnil _ rfl
  case rollInput v => split_ifs <;> exact hnil _ rfl
  case registerFaces =>
    split_ifs
    · unfold handleRegisterFacesBegin
      split_ifs
      · exact hnil _ rfl
      · exact hnil _ rfl
      · exact hone _ _ rfl (fun _ _ h => by cases h)
    · exact hnil _ rfl
  case registerReply i o =>
    split
    · exact hnil _ rfl
    · exact hnil _ (handleRegisterFacesResume_requests _ _ _)
  case captureRecognizePhoto f =>
    split_ifs
    · exact hnil _ (handleCaptureRecognizePhoto_requests f w)
    · exact hnil _ rfl
  case stopRecognizeCamera =>
    split_ifs
    · exact hnil _ (stopCamera_requests _ _)
    · exact hnil _ rfl
  case recognizeFace =>
    split_ifs
    · unfold handleRecognizeFaceBegin
      split_ifs
      · exact hnil _ rfl
      · exact hone _ _ rfl (fun _ _ h => by cases h)
    · exact hnil _ rfl
  case recognizeReply o =>
    split_ifs
    · exact hnil _ rfl
    · exact hnil _ (handleRecognizeFaceResume_requests _ _)
  case markAttendance =>
    split_ifs
    · unfold handleMarkAttendanceBegin
      simp only [hn, if_true]
      exact hnil _ rfl
    · exact hnil _ rfl
  case markReply o =>
    split_ifs
    · exact hnil _ rfl
    · unfold handleMarkAttendanceResume
      cases o with
      | failed => exact hnil _ rfl
      | reply d =>
        by_cases h : d.status = "ok"
        · simp only [h, if_true]
          exact hone _ _ rfl (fun _ _ h => by cases h)
        · simp only [h, if_false]
          exact hnil _ rfl
  case refresh =>
    split_ifs
    · exact hnil _ rfl
    · exact hone _ _ rfl (fun _ _ h => by cases h)
  case statusReply o =>
    split_ifs
    · exact hnil _ rfl
    · exact hnil _ (fetchAttendanceStatusResume_requests _ _)

/-- An event other than a recognize reply with `recognized` true leaves an
empty recognized name and roll empty. -/
theorem dispatch_unrecognized (w : World) (e : Event) (he : e.isRecognizedReply = false)
    (hn : w.st.recognizedName = "") (hr : w.st.recognizedRoll = "") :
    (dispatch w e).st.recognizedName = "" ∧ (dispatch w e).st.recognizedRoll = "" := by
  have hkeep : ∀ w2 : World, w2.st.recognizedName = w.st.recognizedName →
      w2.st.recognizedRoll = w.st.recognizedRoll →
      w2.st.recognizedName = "" ∧ w2.st.recognizedRoll = "" := by
    intro w2 h1 h2
    exact ⟨h1.trans hn, h2.trans hr⟩
  have hsame : ∀ w2 : World, w2.st = w.st →
      w2.st.recognizedName = "" ∧ w2.st.recognizedRoll = "" := by
    intro w2 h
    rw [h]; exact ⟨hn, hr⟩
  cases e <;> simp only [dispatch]
  case homeButton => apply hkeep <;> simp [handleHome, stopCamera_st]
  case startRegister => exact hkeep _ rfl rfl
  case startRecognize => exact ⟨rfl, rfl⟩
  case cameraSettled o =>
    split_ifs
    · exact hsame _ rfl
    · cases o <;> exact hkeep _ rfl rfl
  case captureRegisterPhoto f =>
    split_ifs
    · rcases handleCaptureRegisterPhoto_st f w with h | h <;> rw [h] <;> exact ⟨hn, hr⟩
    · exact hsame _ rfl
  case clearCaptured => split_ifs <;> exact hkeep _ rfl rfl
  case stopRegisterCamera =>
    split_ifs
    · apply hkeep <;> simp [handleStopRegisterCamera, stopCamera_st]
    · exact hsame _ rfl
  case nameInput v => split_ifs <;> exact hkeep _ rfl rfl
  case rollInput v => split_ifs <;> exact hkeep _ rfl rfl
  case registerFaces =>
    split_ifs
    · have h := handleRegisterFacesBegin_st w
      rcases hp : handleRegisterFacesBegin w with ⟨w1, _ | rq⟩ <;> rw [hp] at h <;>
        exact hsame _ h
    · exact hsame _ rfl
  case registerReply i o =>
    split
    · exact hsame _ rfl
    · rename_i c _
      unfold handleRegisterFacesResume
      cases o with
      | failed => exact hsame _ rfl
      | reply d =>
        by_cases h : d.status = "ok"
        · simp only [h, if_true]
          apply hkeep <;> simp [stopCamera_st]
        · simp only [h, if_false]
          exact hsame _ rfl
  case captureRecognizePhoto f =>
    split_ifs
    · rcases handleCaptureRecognizePhoto_st f w with h | h <;> rw [h] <;> exact ⟨hn, hr⟩
    · exact hsame _ rfl
  case stopRecognizeCamera =>
    split_ifs
    · apply hkeep <;> simp [handleStopRecognizeCamera, stopCamera_st]
    · exact hsame _ rfl
  case recognizeFace =>
    split_ifs
    · unfold handleRecognizeFaceBegin
      split_ifs
      · exact hsame _ rfl
      · exact hkeep _ rfl rfl
    · exact hsame _ rfl
  case recognizeReply o =>
    split_ifs
    · exact hsame _ rfl
    · unfold handleRecognizeFaceResume
      cases o with
      | failed => exact hkeep _ rfl rfl
      | reply d =>
        by_cases h : d.status = "ok"
        · by_cases h2 : d.recognized = true
          · simp [Event.isRecognizedReply, h, h2] at he
          · simp only [h, h2, if_true]
            exact ⟨rfl, rfl⟩
        · simp only [h, if_false]
          exact hkeep _ rfl rfl
  case markAttendance =>
    split_ifs
    · have h := handleMarkAttendanceBegin_st w
      rcases hp : handleMarkAttendanceBegin w with ⟨w1, _ | rq⟩ <;> rw [hp] at h <;>
        exact hsame _ h
    · exact hsame _ rfl
  case markReply o =>
    split_ifs
    · exact hsame _ rfl
    · have h := handleMarkAttendanceResume_st o { w with markPending := w.markPending - 1 }
      rcases hp : handleMarkAttendanceResume o { w with markPending := w.markPending - 1 }
        with ⟨w1, _ | _⟩ <;> rw [hp] at h <;> exact hsame _ h
  case refresh => split_ifs <;> exact hsame _ rfl
  case statusReply o =>
    split_ifs
    · exact hsame _ rfl
    · unfold fetchAttendanceStatusResume
      cases o with
      | failed => exact hsame _ rfl
      | reply d =>
        by_cases h : d.status = "ok"
        · simp only [h, if_true]; exact hkeep _ rfl rfl
        · simp only [h, if_false]; exact hsame _ rfl

/-- Along a trace without a recognize reply with `recognized` true, an empty
recognized name and roll stay empty and no mark-attendance request is sent. -/
theorem run_unrecognized (evs : List Event) :
    ∀ w : World, w.st.recognizedName = "" → w.st.recognizedRoll = "" →
      (∀ e ∈ evs, e.isRecognizedReply = false) →
      (run w evs).st.recognizedName = "" ∧ (run w evs).st.recognizedRoll = "" ∧
      ∃ new, (run w evs).requests = w.requests ++ new ∧ noMarkRequest new := by
  induction evs with
  | nil =>
    intro w hn hr _
    exact ⟨hn, hr, [], by simp [run], fun _ _ hc => by cases hc⟩
  | cons e es ih =>
    intro w hn hr he
    have h1 := dispatch_unrecognized w e (he e (List.mem_cons_self _ _)) hn hr
    obtain ⟨new1, hq1, hm1⟩ := dispatch_requests w e (Or.inl hn)
    have hs : (step w e).st.recognizedName = "" ∧ (step w e).st.recognizedRoll = "" := by
      unfold step; rw [render_st]; exact h1
    obtain ⟨hn2, hr2, new2, hq2, hm2⟩ :=
      ih (step w e) hs.1 hs.2 (fun x hx => he x (List.mem_cons_of_mem _ hx))
    refine ⟨hn2, hr2, new1 ++ new2, ?_, ?_⟩
    · have hrun : run w (e :: es) = run (step w e) es := rfl
      rw [hrun, hq2]
      unfold step
      rw [render_requests, hq1, List.append_assoc]
    · intro n r hc
      rcases List.mem_append.mp hc with hc | hc
      · exact hm1 n r hc
      · exact hm2 n r hc


/-- C6: a recognize reply with status "ok" and `recognized` false leaves the
recognized name and roll empty; and from start recognize onward, along every
trace of events without a recognize reply with status "ok" and `recognized`
true, the recognized name and roll stay empty, `handleMarkAttendance` reaches
no `fetch`, and no mark-attendance request has been sent since start
recognize. -/
theorem mark_blocked_until_recognized (w : World) :
    (∀ d : RecognizeReply, d.status = "ok" → d.recognized = false →
      (handleRecognizeFaceResume (.reply d) w).st.recognizedName = "" ∧
      (handleRecognizeFaceResume (.reply d) w).st.recognizedRoll = "") ∧
    (∀ evs : List Event, (∀ e ∈ evs, e.isRecognizedReply = false) →
      (run (step w .startRecognize) evs).st.recognizedName = "" ∧
      (run (step w .startRecognize) evs).st.recognizedRoll = "" ∧
      (handleMarkAttendanceBegin (run (step w .startRecognize) evs)).2 = none ∧
      ∃ new, (run (step w .startRecognize) evs).requests = w.requests ++ new ∧
        noMarkRequest new) := by
  constructor
  · intro d hok hrec
    simp [handleRecognizeFaceResume, hok, hrec]
  · intro evs hev
    have hn : (step w .startRecognize).st.recognizedName = "" := by
      simp [step, dispatch, handleStartRecognize, startCameraBegin]
    have hr : (step w .startRecognize).st.recognizedRoll = "" := by
      simp [step, dispatch, handleStartRecognize, startCameraBegin]
    have hq : (step w .startRecognize).requests = w.requests := by
      simp [step, dispatch, handleStartRecognize, startCameraBegin]
    obtain ⟨h1, h2, new, h3, h4⟩ := run_unrecognized evs (step w .startRecognize) hn hr hev
    refine ⟨h1, h2, ?_, new, by rw [h3, hq], h4⟩
    simp [handleMarkAttendanceBegin, h1]

/-- C6 on scenario B: start recognition, camera granted, one photo, Recognize,
reply "ok" with `recognized` false, then a click on Mark Attendance. -/
theorem mark_blocked_until_recognized_witness :
    (handleMarkAttendanceBegin (run (step init .startRecognize)
      [.cameraSettled .granted, .captureRecognizePhoto ⟨640, 480, "AAAA"⟩, .recognizeFace,
        .recognizeReply (.reply ⟨"ok", false, "", "", ""⟩), .markAttendance])).2 = none :=
  ((mark_blocked_until_recognized init).2
    [.cameraSettled .granted, .captureRecognizePhoto ⟨640, 480, "AAAA"⟩, .recognizeFace,
      .recognizeReply (.reply ⟨"ok", false, "", "", ""⟩), .markAttendance]
    (by decide)).2.2.1

/-! ## C7: switching from enrollment to recognition -/

/-- C7, refuted as stated: in the register view with one captured photo, start
recognize leaves that photo in the enrollment buffer. -/
theorem startRecognize_keeps_enrollment_buffer :
    (run init [.startRegister, .cameraSettled .granted,
      .captureRegisterPhoto ⟨640, 480, "AAAA"⟩]).st.view = .register ∧
    (run init [.startRegister, .cameraSettled .granted,
      .captureRegisterPhoto ⟨640, 480, "AAAA"⟩, .startRecognize]).st.capturedImages
      = ["data:image/jpeg;base64,AAAA"] := by
  decide

/-- C7, amended: after the start-recognize event, from every state, the view is
recognize and the recognition image, the result text, the recognized name and
the recognized roll are all empty; the enrollment buffer is left as it was, and
it is the next start register that empties it. -/
theorem startRecognize_clears_recognition (w : World) :
    (step w .startRecognize).st.view = .recognize ∧
    (step w .startRecognize).st.recognizeImage = "" ∧
    (step w .startRecognize).st.recognizeResult = "" ∧
    (step w .startRecognize).st.recognizedName = "" ∧
    (step w .startRecognize).st.recognizedRoll = "" ∧
    (step w .startRecognize).st.capturedImages = w.st.capturedImages ∧
    (step (step w .startRecognize) .startRegister).st.capturedImages = [] := by
  simp [step, dispatch, handleStartRecognize, handleStartRegister, startCameraBegin]

/-! ## C8: acquiring a camera while one is held -/

/-- What `stopCamera` does to the camera: the identifier supply is untouched,
no stream starts running, and no stream is held afterwards. -/
theorem stopCamera_camera (c : Option Nat) (w : World) :
    (stopCamera c w).nextStream = w.nextStream ∧
    (∀ s ∈ (stopCamera c w).running, s ∈ w.running) ∧
    (stopCamera c w).st.stream = none := by
  cases c with
  | none => exact ⟨rfl, fun _ h => h, rfl⟩
  | some t =>
    refine ⟨rfl, fun s h => ?_, rfl⟩
    simp only [stopCamera] at h
    exact (List.mem_filter.mp h).1

/-- Every event other than a granted camera acquisition leaves the identifier
supply alone, starts no stream, and keeps or drops the held stream; a granted
acquisition stores a new stream and starts it next to the running ones. -/
theorem dispatch_camera (w : World) (e : Event) :
    ((dispatch w e).nextStream = w.nextStream ∧
      (∀ s ∈ (dispatch w e).running, s ∈ w.running) ∧
      ((dispatch w e).st.stream = w.st.stream ∨ (dispatch w e).st.stream = none)) ∨
    (e = .cameraSettled .granted ∧
      (dispatch w e).nextStream = w.nextStream + 1 ∧
      (dispatch w e).running = w.nextStream :: w.running ∧
      (dispatch w e).st.stream = some w.nextStream) := by
  have hid : ∀ w2 : World, w2.nextStream = w.nextStream → w2.running = w.running →
      w2.st.stream = w.st.stream →
      (w2.nextStream = w.nextStream ∧ (∀ s ∈ w2.running, s ∈ w.running) ∧
        (w2.st.stream = w.st.stream ∨ w2.st.stream = none)) := by
    intro w2 h1 h2 h3
    exact ⟨h1, fun s hs => h2 ▸ hs, Or.inl h3⟩
  have hstop : ∀ (c : Option Nat) (w2 : World), w2.nextStream = w.nextStream →
      w2.running = w.running →
      ((stopCamera c w2).nextStream = w.nextStream ∧
        (∀ s ∈ (stopCamera c w2).running, s ∈ w.running) ∧
        ((stopCamera c w2).st.stream = w.st.stream ∨ (stopCamera c w2).st.stream = none)) := by
    intro c w2 h1 h2
    have h := stopCamera_camera c w2
    exact ⟨h.1.trans h1, fun s hs => h2 ▸ h.2.1 s hs, Or.inr h.2.2⟩
  cases e <;> simp only [dispatch]
  case homeButton => left; exact hstop _ _ rfl rfl
  case startRegister => left; exact hid _ rfl rfl rfl
  case startRecognize => left; exact hid _ rfl rfl rfl
  case cameraSettled o =>
    by_cases hp : w.cameraPending = 0
    · left; simp only [hp, if_true]; first | exact hid _ rfl rfl rfl | exact ⟨trivial, fun _ hs => hs, Or.inl trivial⟩
    · simp only [hp, if_false]
      cases o with
      | granted => right; exact ⟨rfl, rfl, rfl, rfl⟩
      | denied => left; exact hid _ rfl rfl rfl
  case captureRegisterPhoto f =>
    left
    split_ifs
    · unfold handleCaptureRegisterPhoto captureFrame
      cases w.videoRef with
      | none => exact hid _ rfl rfl rfl
      | some v =>
        by_cases h : toDataURL f = "" <;> simp only [h, ne_eq, not_true_eq_false,
          not_false_eq_true, if_true, if_false] <;>
          (first | exact hid _ rfl rfl rfl | exact ⟨trivial, fun _ hs => hs, Or.inl trivial⟩)
    · exact hid _ rfl rfl rfl
  case clearCaptured => left; split_ifs <;> exact hid _ rfl rfl rfl
  case stopRegisterCamera =>
    left
    split_ifs
    · exact hstop _ _ rfl rfl
    · exact hid _ rfl rfl rfl
  case nameInput v => left; split_ifs <;> exact hid _ rfl rfl rfl
  case rollInput v => left; split_ifs <;> exact hid _ rfl rfl rfl
  case registerFaces =>
    left
    split_ifs
    · unfold handleRegisterFacesBegin
      split_ifs <;> exact hid _ rfl rfl rfl
    · exact hid _ rfl rfl rfl
  case registerReply i o =>
    left
    split
    · exact hid _ rfl rfl rfl
    · unfold handleRegisterFacesResume
      cases o with
      | failed => exact hid _ rfl rfl rfl
      | reply d =>
        by_cases h : d.status = "ok"
        · simp only [h, if_true]
          exact hstop _ _ rfl rfl
        · simp only [h, if_false]
          exact hid _ rfl rfl rfl
  case captureRecognizePhoto f =>
    left
    split_ifs
    · unfold handleCaptureRecognizePhoto captureFrame
      cases w.videoRef with
      | none => exact hid _ rfl rfl rfl
      | some v =>
        by_cases h : toDataURL f = "" <;> simp only [h, ne_eq, not_true_eq_false,
          not_false_eq_true, if_true, if_false] <;>
          (first | exact hid _ rfl rfl rfl | exact ⟨trivial, fun _ hs => hs, Or.inl trivial⟩)
    · exact hid _ rfl rfl rfl
  case stopRecognizeCamera =>
    left
    split_ifs
    · exact hstop _ _ rfl rfl
    · exact hid _ rfl rfl rfl
  case recognizeFace =>
    left
    split_ifs
    · unfold handleRecognizeFaceBegin
      split_ifs <;> exact hid _ rfl rfl rfl
    · exact hid _ rfl rfl rfl
  case recognizeReply o =>
    left
    split_ifs
    · exact hid _ rfl rfl rfl
    · unfold handleRecognizeFaceResume
      cases o with
      | failed => exact hid _ rfl rfl rfl
      | reply d =>
        by_cases h : d.status = "ok" <;> by_cases h2 : d.recognized = true <;>
          simp only [h, h2, if_true, if_false, not_true_eq_false, not_false_eq_true] <;>
          (first | exact hid _ rfl rfl rfl | exact ⟨trivial, fun _ hs => hs, Or.inl trivial⟩)
  case markAttendance =>
    left
    split_ifs
    · unfold handleMarkAttendanceBegin
      split_ifs <;> exact hid _ rfl rfl rfl
    · exact hid _ rfl rfl rfl
  case markReply o =>
    left
    split_ifs
    · exact hid _ rfl rfl rfl
    · unfold handleMarkAttendanceResume
      cases o with
      | failed => exact hid _ rfl rfl rfl
      | reply d =>
        by_cases h : d.status = "ok" <;> simp only [h, if_true, if_false] <;>
          exact hid _ rfl rfl rfl
  case refresh => left; split_ifs <;> exact hid _ rfl rfl rfl
  case statusReply o =>
    left
    split_ifs
    · exact hid _ rfl rfl rfl
    · unfold fetchAttendanceStatusResume
      cases o with
      | failed => exact hid _ rfl rfl rfl
      | reply d =>
        by_cases h : d.status = "ok" <;> simp only [h, if_true, if_false] <;>
          (first | exact hid _ rfl rfl rfl | exact ⟨trivial, fun _ hs => hs, Or.inl trivial⟩)

/-- Rendering leaves the identifier supply alone. -/
@[simp] theorem render_nextStream (w : World) : (render w).nextStream = w.nextStream := by
  unfold render
  split
  · rfl
  · split <;> rfl

/-- One event keeps the stream identifiers fresh. -/
theorem step_fresh (w : World) (e : Event) (h : Fresh w) : Fresh (step w e) := by
  unfold Fresh step at *
  rw [render_nextStream, render_running, render_st]
  rcases dispatch_camera w e with ⟨h1, h2, h3⟩ | ⟨_, h1, h2, h3⟩
  · rw [h1]
    refine ⟨fun s hs => h.1 s (h2 s hs), fun s hs => ?_⟩
    rcases h3 with h3 | h3
    · rw [h3] at hs; exact h.2 s hs
    · rw [h3] at hs; cases hs
  · rw [h1, h2, h3]
    refine ⟨fun s hs => ?_, fun s hs => ?_⟩
    · rcases List.mem_cons.mp hs with hs | hs
      · omega
      · have := h.1 s hs; omega
    · cases hs; omega

/-- Every state reachable from a fresh one is fresh. -/
theorem run_fresh (evs : List Event) : ∀ w : World, Fresh w → Fresh (run w evs) := by
  induction evs with
  | nil => intro w h; exact h
  | cons e es ih => intro w h; exact ih (step w e) (step_fresh w e h)

/-- A trace followed by two more events. -/
theorem run_append_two (w : World) (evs : List Event) (e1 e2 : Event) :
    run w (evs ++ [e1, e2]) = step (step (run w evs) e1) e2 := by
  simp [run, List.foldl_append]

/-- C8, refuted as stated: start register, camera granted, then start recognize,
camera granted.  The first stream (0) is held when `startCamera` runs again;
afterwards both streams have running tracks. -/
theorem two_streams_running :
    (run init [.startRegister, .cameraSettled .granted]).st.stream = some 0 ∧
    (run init [.startRegister, .cameraSettled .granted, .startRecognize,
      .cameraSettled .granted]).st.stream = some 1 ∧
    (run init [.startRegister, .cameraSettled .granted, .startRecognize,
      .cameraSettled .granted]).running = [1, 0] := by
  decide

/-- C8, amended: when `startCamera` runs while a stream is held and running
(start register or start recognize pressed in any reachable state) and the
acquisition is granted, the new stream is stored in place of the held one, it
differs from it, and the tracks of the previously held stream are not stopped:
both streams are running afterwards. -/
theorem startCamera_keeps_previous_stream (evs : List Event) (s : Nat) (e : Event)
    (hs : (run init evs).st.stream = some s) (hr : s ∈ (run init evs).running)
    (he : e = .startRegister ∨ e = .startRecognize) :
    ∃ s', (run init (evs ++ [e, .cameraSettled .granted])).st.stream = some s' ∧
      s' ≠ s ∧
      s ∈ (run init (evs ++ [e, .cameraSettled .granted])).running ∧
      s' ∈ (run init (evs ++ [e, .cameraSettled .granted])).running := by
  have hf0 : Fresh init := by
    constructor
    · intro t ht; cases ht
    · intro t ht; cases ht
  have hf : Fresh (run init evs) := run_fresh evs init hf0
  rw [run_append_two]
  generalize run init evs = w at hs hr hf
  have hlt : s < w.nextStream := hf.2 s hs
  have h1 : (step w e).nextStream = w.nextStream ∧ (step w e).running = w.running ∧
      (step w e).cameraPending ≠ 0 := by
    have hp : ∀ w2 : World, w2.cameraPending ≠ 0 → (render w2).cameraPending ≠ 0 := by
      intro w2 h
      unfold render
      split
      · exact h
      · split <;> exact h
    unfold step
    rw [render_nextStream, render_running]
    rcases he with he | he <;> subst he
    · exact ⟨rfl, rfl, hp _ (Nat.succ_ne_zero _)⟩
    · exact ⟨rfl, rfl, hp _ (Nat.succ_ne_zero _)⟩
  generalize step w e = w1 at h1
  refine ⟨w.nextStream, ?_, by omega, ?_, ?_⟩ <;>
    simp only [step, dispatch, h1.2.2, if_false, render_st, render_running,
      startCameraResume, h1.1, h1.2.1]
  · exact List.mem_cons_of_mem _ hr
  · exact List.mem_cons_self _ _

/-- C8, amended, on a concrete trace: the stream of the register view is still
running after start recognize has acquired a second one. -/
theorem startCamera_keeps_previous_stream_witness :
    ∃ s', (run init ([.startRegister, .cameraSettled .granted]
        ++ [.startRecognize, .cameraSettled .granted])).st.stream = some s' ∧
      s' ≠ 0 ∧
      0 ∈ (run init ([.startRegister, .cameraSettled .granted]
        ++ [.startRecognize, .cameraSettled .granted])).running ∧
      s' ∈ (run init ([.startRegister, .cameraSettled .granted]
        ++ [.startRecognize, .cameraSettled .granted])).running :=
  startCamera_keeps_previous_stream [.startRegister, .cameraSettled .granted] 0
    .startRecognize (by decide) (by decide) (Or.inr rfl)


/-! ## C9: leaving for Home, and `stopCamera` twice -/

/-- C9, refuted as stated: Register is clicked before the camera is granted,
so the handler holds no stream; the camera is granted while the request is in
flight, and stream 0 is held when the reply "ok" arrives.  The session goes to
home and the stream cell is emptied, but the tracks of stream 0 keep running. -/
theorem enroll_reply_leaves_later_stream_running :
    (run init [.startRegister, .captureRegisterPhoto ⟨0, 0, ""⟩, .nameInput "Asha",
      .rollInput "101", .registerFaces, .cameraSettled .granted]).st.stream = some 0 ∧
    (run init [.startRegister, .captureRegisterPhoto ⟨0, 0, ""⟩, .nameInput "Asha",
      .rollInput "101", .registerFaces, .cameraSettled .granted,
      .registerReply 0 (.reply ⟨"ok", "Registered Asha"⟩)]).st.view = .home ∧
    (run init [.startRegister, .captureRegisterPhoto ⟨0, 0, ""⟩, .nameInput "Asha",
      .rollInput "101", .registerFaces, .cameraSettled .granted,
      .registerReply 0 (.reply ⟨"ok", "Registered Asha"⟩)]).st.stream = none ∧
    (run init [.startRegister, .captureRegisterPhoto ⟨0, 0, ""⟩, .nameInput "Asha",
      .rollInput "101", .registerFaces, .cameraSettled .granted,
      .registerReply 0 (.reply ⟨"ok", "Registered Asha"⟩)]).running = [0] := by
  decide

/-- C9, amended: the Home button, from any state, ends in the home view with no
stream held and the tracks of the stream that was held stopped; so does a
successful enroll whose reply is handled while the stream held is still the
one its handler took at the Register click, for the continuation and for the
reply event of a request in flight; and `stopCamera` is idempotent: on a state
without a stream it changes nothing, and a second call, from the same closure
or from the next render, changes nothing more. -/
theorem home_releases_camera (w : World) :
    ((step w .homeButton).st.view = .home ∧
      (step w .homeButton).st.stream = none ∧
      ∀ s, w.st.stream = some s → s ∉ (step w .homeButton).running) ∧
    (∀ d : StatusReply, d.status = "ok" →
      (handleRegisterFacesResume w.st.stream (.reply d) w).st.view = .home ∧
      (handleRegisterFacesResume w.st.stream (.reply d) w).st.stream = none ∧
      ∀ s, w.st.stream = some s →
        s ∉ (handleRegisterFacesResume w.st.stream (.reply d) w).running) ∧
    (w.st.stream = none → stopCamera w.st.stream w = w) ∧
    (∀ c : Option Nat, stopCamera c (stopCamera c w) = stopCamera c w) ∧
    stopCamera (stopCamera w.st.stream w).st.stream (stopCamera w.st.stream w)
      = stopCamera w.st.stream w ∧
    (∀ (i : Nat) (d : StatusReply), w.registerPending.get? i = some w.st.stream →
      d.status = "ok" →
      (step w (.registerReply i (.reply d))).st.view = .home ∧
      (step w (.registerReply i (.reply d))).st.stream = none ∧
      ∀ s, w.st.stream = some s → s ∉ (step w (.registerReply i (.reply d))).running) := by
  have henroll : ∀ d : StatusReply, d.status = "ok" →
      (handleRegisterFacesResume w.st.stream (.reply d) w).st.view = .home ∧
      (handleRegisterFacesResume w.st.stream (.reply d) w).st.stream = none ∧
      ∀ s, w.st.stream = some s →
        s ∉ (handleRegisterFacesResume w.st.stream (.reply d) w).running := by
    intro d hok
    simp only [handleRegisterFacesResume, hok, if_true]
    refine ⟨trivial, ?_, ?_⟩
    · cases w.st.stream <;> rfl
    · intro s hs
      rw [hs]
      simp [stopCamera, alert]
  refine ⟨⟨?_, ?_, ?_⟩, henroll, ?_, ?_, ?_, ?_⟩
  · simp [step, dispatch, handleHome, stopCamera_st]
  · simp [step, dispatch, handleHome, stopCamera_st]
  · intro s hs
    simp [step, dispatch, handleHome, stopCamera, hs]
  · intro hn
    rw [hn]
    obtain ⟨st, v, r, n, cp, rp, gp, mp, sp, rq, al⟩ := w
    obtain ⟨a, b, c, d, e, f, g, h, i, j, k⟩ := st
    simp only at hn
    subst hn
    rfl
  · intro c
    cases c with
    | none => rfl
    | some t => simp [stopCamera, List.filter_filter]
  · have h : (stopCamera w.st.stream w).st.stream = none := by
      rw [stopCamera_st]
    rw [h]
    cases w.st.stream <;> rfl
  · intro i d hget hok
    have hc := handleRegisterFacesResume_congr w.st.stream (.reply d)
      { w with registerPending := w.registerPending.eraseIdx i } w rfl rfl
    have hd : dispatch w (.registerReply i (.reply d))
        = handleRegisterFacesResume w.st.stream (.reply d)
            { w with registerPending := w.registerPending.eraseIdx i } := by
      simp only [dispatch, hget]
    unfold step
    rw [render_st, render_running, hd, hc.1, hc.2]
    exact henroll d hok

/-- C9, amended, on scenario A: Home stops stream 0; so does the reply "ok" to
the request sent from scenario A, as a continuation and as the reply event
after the Register click; and a first `stopCamera` on the initial state, where
no stream is held, changes nothing. -/
theorem home_releases_camera_witness :
    (0 ∉ (step scenarioA .homeButton).running) ∧
    (0 ∉ (handleRegisterFacesResume scenarioA.st.stream
      (.reply ⟨"ok", "Registered Asha"⟩) scenarioA).running) ∧
    stopCamera init.st.stream init = init ∧
    (0 ∉ (step (step scenarioA .registerFaces)
      (.registerReply 0 (.reply ⟨"ok", "Registered Asha"⟩))).running) :=
  ⟨(home_releases_camera scenarioA).1.2.2 0 (by decide),
   ((home_releases_camera scenarioA).2.1 ⟨"ok", "Registered Asha"⟩ rfl).2.2 0 (by decide),
   (home_releases_camera init).2.2.1 (by decide),
   ((home_releases_camera (step scenarioA .registerFaces)).2.2.2.2.2 0
     ⟨"ok", "Registered Asha"⟩ (by decide) rfl).2.2 0 (by decide)⟩

/-! ## C10: refreshing the attendance lists -/

/-- C10: when the reply to `/attendance-status` has status "ok",
`fetchAttendanceStatus` stores exactly the two lists of the reply, whatever the
cached lists were; when the reply has any other status or the request fails,
the whole React state, both cached lists included, is what it was. -/
theorem fetchAttendanceStatus_replaces_or_keeps (w : World) :
    (∀ d : AttendanceReply, d.status = "ok" →
      (fetchAttendanceStatusResume (.reply d) w).st.attendedToday = d.attended_today ∧
      (fetchAttendanceStatusResume (.reply d) w).st.notAttendedToday
        = d.not_attended_today) ∧
    (∀ o : Outcome AttendanceReply, (∀ d, o = .reply d → d.status ≠ "ok") →
      (fetchAttendanceStatusResume o w).st = w.st) := by
  constructor
  · intro d hok
    simp [fetchAttendanceStatusResume, hok]
  · intro o ho
    unfold fetchAttendanceStatusResume
    cases o with
    | failed => rfl
    | reply d =>
      have hd : d.status ≠ "ok" := ho d rfl
      simp only [hd, if_false]

/-- C10 on concrete replies: with Ravi cached as attended, an "ok" reply listing
Asha replaces the list, and an "error" reply keeps it. -/
theorem fetchAttendanceStatus_replaces_or_keeps_witness :
    (fetchAttendanceStatusResume (.reply ⟨"ok", [⟨"Asha", "101"⟩], []⟩)
      { init with st := { init.st with attendedToday := [⟨"Ravi", "55"⟩] } }).st.attendedToday
      = [⟨"Asha", "101"⟩] ∧
    (fetchAttendanceStatusResume (.reply ⟨"error", [⟨"Asha", "101"⟩], []⟩)
      { init with st := { init.st with attendedToday := [⟨"Ravi", "55"⟩] } }).st.attendedToday
      = [⟨"Ravi", "55"⟩] :=
  ⟨((fetchAttendanceStatus_replaces_or_keeps _).1 ⟨"ok", [⟨"Asha", "101"⟩], []⟩ rfl).1,
   congrArg State.attendedToday
     ((fetchAttendanceStatus_replaces_or_keeps _).2 (.reply ⟨"error", [⟨"Asha", "101"⟩], []⟩)
       (fun d hd => by cases hd; decide))⟩


/-! ## C11: marking attendance -/

/-- Rendering leaves the status requests in flight alone. -/
@[simp] theorem render_statusPending (w : World) :
    (render w).statusPending = w.statusPending := by
  unfold render
  split
  · rfl
  · split <;> rfl

/-- C11: with a non-empty recognized name and roll, `handleMarkAttendance`
sends exactly those two values (and the click in the recognize view puts that
one request on the wire); a reply with status "ok" calls
`fetchAttendanceStatus` once, so one attendance-status request is sent; a reply
with any other status, or a failed request, calls no refresh, sends nothing and
leaves the React state, the cached attendance lists included, as it was. -/
theorem handleMarkAttendance_sends_and_refreshes (w : World)
    (hn : w.st.recognizedName ≠ "") (hr : w.st.recognizedRoll ≠ "") :
    handleMarkAttendanceBegin w
      = (w, some (.markAttendance w.st.recognizedName w.st.recognizedRoll)) ∧
    (w.st.view = .recognize →
      (step w .markAttendance).requests
        = w.requests ++ [.markAttendance w.st.recognizedName w.st.recognizedRoll]) ∧
    (∀ (d : StatusReply) (w2 : World), d.status = "ok" →
      (handleMarkAttendanceResume (.reply d) w2).2 = true ∧
      (handleMarkAttendanceResume (.reply d) w2).1.st = w2.st ∧
      (w2.markPending ≠ 0 →
        (step w2 (.markReply (.reply d))).requests = w2.requests ++ [.attendanceStatus] ∧
        (step w2 (.markReply (.reply d))).statusPending = w2.statusPending + 1)) ∧
    (∀ (o : Outcome StatusReply) (w2 : World), (∀ d, o = .reply d → d.status ≠ "ok") →
      (handleMarkAttendanceResume o w2).2 = false ∧
      (handleMarkAttendanceResume o w2).1.st = w2.st ∧
      (step w2 (.markReply o)).requests = w2.requests ∧
      (step w2 (.markReply o)).statusPending = w2.statusPending ∧
      (step w2 (.markReply o)).st = w2.st) := by
  have hb : handleMarkAttendanceBegin w
      = (w, some (.markAttendance w.st.recognizedName w.st.recognizedRoll)) := by
    unfold handleMarkAttendanceBegin
    simp [hn, hr]
  refine ⟨hb, ?_, ?_, ?_⟩
  · intro hv
    simp only [step, render_requests, dispatch, hv, if_true, hb]
    rfl
  · intro d w2 hok
    have hres : ∀ w3 : World,
        handleMarkAttendanceResume (.reply d) w3 = (alert d.message w3, true) := by
      intro w3
      simp [handleMarkAttendanceResume, hok]
    refine ⟨by rw [hres], by rw [hres]; rfl, ?_⟩
    intro hp
    simp only [step, render_requests, render_statusPending, dispatch, hp, if_false, hres]
    exact ⟨rfl, rfl⟩
  · intro o w2 ho
    have hres : ∀ w3 : World, ∃ m, handleMarkAttendanceResume o w3 = (alert m w3, false) := by
      intro w3
      cases o with
      | failed => exact ⟨_, rfl⟩
      | reply d =>
        have hd : d.status ≠ "ok" := ho d rfl
        exact ⟨"Error: " ++ d.message, by simp [handleMarkAttendanceResume, hd]⟩
    obtain ⟨m, hm⟩ := hres w2
    refine ⟨by rw [hm], by rw [hm]; rfl, ?_⟩
    simp only [step, render_requests, render_statusPending, render_st, dispatch]
    by_cases hp : w2.markPending = 0
    · simp only [hp, if_true]
      exact ⟨trivial, trivial, trivial⟩
    · obtain ⟨m2, hm2⟩ := hres { w2 with markPending := w2.markPending - 1 }
      simp only [hp, if_false, hm2]
      exact ⟨rfl, rfl, rfl⟩

/-- C11 on scenario C: Ravi, roll 55, has been recognized; the click sends
exactly that name and roll. -/
theorem handleMarkAttendance_sends_and_refreshes_witness :
    (step scenarioC .markAttendance).requests
      = scenarioC.requests ++ [.markAttendance "Ravi" "55"] :=
  (handleMarkAttendance_sends_and_refreshes scenarioC (by decide) (by decide)).2.1
    (by decide)


/-! ## C12: the buffers when Home is pressed -/

/-- C12, refuted as stated: Home pressed in the register view with one captured
photo leaves that photo in the enrollment buffer, and Home pressed in the
recognize view with a captured photo leaves it in the recognition slot. -/
theorem home_keeps_capture_buffers :
    ((run init [.startRegister, .cameraSettled .granted,
        .captureRegisterPhoto ⟨640, 480, "AAAA"⟩]).st.view = .register ∧
      (run init [.startRegister, .cameraSettled .granted,
        .captureRegisterPhoto ⟨640, 480, "AAAA"⟩, .homeButton]).st.capturedImages
        = ["data:image/jpeg;base64,AAAA"]) ∧
    ((run init [.startRecognize, .cameraSettled .granted,
        .captureRecognizePhoto ⟨640, 480, "AAAA"⟩]).st.view = .recognize ∧
      (run init [.startRecognize, .cameraSettled .granted,
        .captureRecognizePhoto ⟨640, 480, "AAAA"⟩, .homeButton]).st.recognizeImage
        = "data:image/jpeg;base64,AAAA") := by
  decide

/-- C12, amended: the Home button, from every state, leaves the enrollment
captured-image list and the recognition image slot as they were; the next
start register empties both, and the next start recognize empties the
recognition image slot. -/
theorem home_leaves_buffers_until_next_start (w : World) :
    (step w .homeButton).st.capturedImages = w.st.capturedImages ∧
    (step w .homeButton).st.recognizeImage = w.st.recognizeImage ∧
    (step (step w .homeButton) .startRegister).st.capturedImages = [] ∧
    (step (step w .homeButton) .startRegister).st.recognizeImage = "" ∧
    (step (step w .homeButton) .startRecognize).st.recognizeImage = "" := by
  refine ⟨?_, ?_, ?_, ?_, ?_⟩ <;>
    simp [step, dispatch, handleHome, stopCamera_st, handleStartRegister,
      handleStartRecognize, startCameraBegin]

/-! ## C13: a photo taken before the video has a size -/

/-- C13, refuted as stated: a photo taken in the register view before the
camera is granted, from a video of width and height zero, is not rejected:
`captureFrame` yields the data URL of an empty canvas and it is appended to the
enrollment buffer; in the recognize view such a photo overwrites the one
captured before. -/
theorem zero_size_capture_changes_state :
    captureFrame (run init [.startRegister]) ⟨0, 0, ""⟩ = some "data:," ∧
    (run init [.startRegister, .captureRegisterPhoto ⟨0, 0, ""⟩]).st.capturedImages
      = ["data:,"] ∧
    (run init [.startRecognize, .cameraSettled .granted,
      .captureRecognizePhoto ⟨640, 480, "AAAA"⟩]).st.recognizeImage
      = "data:image/jpeg;base64,AAAA" ∧
    (run init [.startRecognize, .cameraSettled .granted,
      .captureRecognizePhoto ⟨640, 480, "AAAA"⟩,
      .captureRecognizePhoto ⟨0, 480, "BBBB"⟩]).st.recognizeImage = "data:," := by
  decide

/-- C13, amended: `captureFrame` yields no image when no video element is
mounted, and both capture handlers then leave the whole world unchanged; when
an element is mounted and reports zero width or height, `captureFrame` yields
the data URL of an empty canvas, the enrollment handler appends it to the
buffer and the recognition handler stores it in the recognition slot. -/
theorem captureFrame_checks_element_not_size (w : World) (f : Frame) :
    (w.videoRef = none →
      captureFrame w f = none ∧
      handleCaptureRegisterPhoto f w = w ∧
      handleCaptureRecognizePhoto f w = w) ∧
    (w.videoRef ≠ none → (f.videoWidth = 0 ∨ f.videoHeight = 0) →
      captureFrame w f = some "data:," ∧
      (handleCaptureRegisterPhoto f w).st.capturedImages
        = w.st.capturedImages ++ ["data:,"] ∧
      (handleCaptureRecognizePhoto f w).st.recognizeImage = "data:,") := by
  constructor
  · intro hv
    simp [captureFrame, handleCaptureRegisterPhoto, handleCaptureRecognizePhoto, hv]
  · intro hv hz
    have hu : toDataURL f = "data:," := by
      unfold toDataURL
      simp [hz]
    have hc : captureFrame w f = some "data:," := by
      unfold captureFrame
      cases hr : w.videoRef with
      | none => exact absurd hr hv
      | some v => simp [hu]
    have hne : ("data:," : String) ≠ "" := by decide
    refine ⟨hc, ?_, ?_⟩
    · simp [handleCaptureRegisterPhoto, hc, hne]
    · simp [handleCaptureRecognizePhoto, hc, hne]

/-- C13, amended, on concrete states: no element is mounted in the initial
state, and one is mounted without a stream right after start register. -/
theorem captureFrame_checks_element_not_size_witness :
    handleCaptureRegisterPhoto ⟨0, 0, ""⟩ init = init ∧
    (handleCaptureRegisterPhoto ⟨0, 0, ""⟩ (run init [.startRegister])).st.capturedImages
      = (run init [.startRegister]).st.capturedImages ++ ["data:,"] :=
  ⟨((captureFrame_checks_element_not_size init ⟨0, 0, ""⟩).1 (by decide)).2.1,
   ((captureFrame_checks_element_not_size (run init [.startRegister]) ⟨0, 0, ""⟩).2
     (by decide) (Or.inl rfl)).2.1⟩


/-! ## C14: a recognize reply that arrives late -/

/-- Rendering leaves the recognize requests in flight alone. -/
@[simp] theorem render_recognizePending (w : World) :
    (render w).recognizePending = w.recognizePending := by
  unfold render
  split
  · rfl
  · split <;> rfl

/-- The continuation of `handleRecognizeFace` reads only the React state of the
world it resumes in. -/
theorem handleRecognizeFaceResume_congr (o : Outcome RecognizeReply) (w1 w2 : World)
    (h : w1.st = w2.st) :
    (handleRecognizeFaceResume o w1).st = (handleRecognizeFaceResume o w2).st := by
  unfold handleRecognizeFaceResume
  cases o with
  | failed => simp [h]
  | reply d =>
    by_cases h1 : d.status = "ok" <;> by_cases h2 : d.recognized = true <;> simp [h1, h2, h]

/-- C14, refuted as stated: the reply to a recognize request arrives after Home
was pressed; it is applied all the same, and the home view ends up with the
result text, the name and the roll of the reply. -/
theorem stale_recognize_reply_changes_state :
    (run init [.startRecognize, .cameraSettled .granted,
      .captureRecognizePhoto ⟨640, 480, "AAAA"⟩, .recognizeFace, .homeButton,
      .recognizeReply (.reply ⟨"ok", true, "Ravi", "55", ""⟩)]).st.view = .home ∧
    (run init [.startRecognize, .cameraSettled .granted,
      .captureRecognizePhoto ⟨640, 480, "AAAA"⟩, .recognizeFace, .homeButton]).st.recognizeResult
      = "Recognizing..." ∧
    (run init [.startRecognize, .cameraSettled .granted,
      .captureRecognizePhoto ⟨640, 480, "AAAA"⟩, .recognizeFace, .homeButton,
      .recognizeReply (.reply ⟨"ok", true, "Ravi", "55", ""⟩)]).st.recognizeResult
      = "Recognized: Ravi (Roll: 55)" ∧
    (run init [.startRecognize, .cameraSettled .granted,
      .captureRecognizePhoto ⟨640, 480, "AAAA"⟩, .recognizeFace, .homeButton,
      .recognizeReply (.reply ⟨"ok", true, "Ravi", "55", ""⟩)]).st.recognizedName = "Ravi" ∧
    (run init [.startRecognize, .cameraSettled .granted,
      .captureRecognizePhoto ⟨640, 480, "AAAA"⟩, .recognizeFace, .homeButton,
      .recognizeReply (.reply ⟨"ok", true, "Ravi", "55", ""⟩)]).st.recognizedRoll = "55" := by
  decide

/-- C14, amended: a recognize reply is applied whenever it arrives.  When the
user presses Home, start register or start recognize between the Recognize
click and the reply, the reply acts on the state that event left exactly as the
continuation of `handleRecognizeFace` does on any state, and a reply with
status "ok" and `recognized` true sets the result text, the recognized name and
the recognized roll. -/
theorem late_recognize_reply_is_applied (w : World) (e : Event)
    (o : Outcome RecognizeReply)
    (hv : w.st.view = .recognize) (hi : w.st.recognizeImage ≠ "")
    (he : e = .homeButton ∨ e = .startRegister ∨ e = .startRecognize) :
    (run w [.recognizeFace, e, .recognizeReply o]).st
      = (handleRecognizeFaceResume o (run w [.recognizeFace, e])).st ∧
    (∀ d : RecognizeReply, o = .reply d → d.status = "ok" → d.recognized = true →
      (run w [.recognizeFace, e, .recognizeReply o]).st.recognizeResult
        = "Recognized: " ++ d.name ++ " (Roll: " ++ d.roll ++ ")" ∧
      (run w [.recognizeFace, e, .recognizeReply o]).st.recognizedName = d.name ∧
      (run w [.recognizeFace, e, .recognizeReply o]).st.recognizedRoll = d.roll) := by
  have h1 : (step w .recognizeFace).recognizePending = w.recognizePending + 1 := by
    simp only [step, render_recognizePending, dispatch, hv, if_true, handleRecognizeFaceBegin,
      hi, if_false]
  have h2 : (step (step w .recognizeFace) e).recognizePending ≠ 0 := by
    generalize step w .recognizeFace = w1 at h1
    have h3 : (step w1 e).recognizePending = w1.recognizePending := by
      unfold step
      rw [render_recognizePending]
      rcases he with he | he | he <;> subst he
      · simp only [dispatch, handleHome]
        cases w1.st.stream <;> rfl
      · rfl
      · rfl
    rw [h3, h1]
    exact Nat.succ_ne_zero _
  have hrun : run w [.recognizeFace, e, .recognizeReply o]
      = step (run w [.recognizeFace, e]) (.recognizeReply o) := rfl
  have hrun2 : run w [.recognizeFace, e] = step (step w .recognizeFace) e := rfl
  rw [hrun2] at hrun ⊢
  generalize step (step w .recognizeFace) e = w2 at h2 hrun
  have hst : (run w [.recognizeFace, e, .recognizeReply o]).st
      = (handleRecognizeFaceResume o w2).st := by
    rw [hrun]
    simp only [step, render_st, dispatch, h2, if_false]
    exact handleRecognizeFaceResume_congr o _ _ rfl
  refine ⟨hst, ?_⟩
  intro d ho hok hrec
  rw [hst, ho]
  simp [handleRecognizeFaceResume, hok, hrec]

/-- C14, amended, on a concrete trace: Ravi is recognized from a request sent
in a recognition session the user left for the register view. -/
theorem late_recognize_reply_is_applied_witness :
    (run (run init [.startRecognize, .cameraSettled .granted,
        .captureRecognizePhoto ⟨640, 480, "AAAA"⟩])
      [.recognizeFace, .startRegister,
        .recognizeReply (.reply ⟨"ok", true, "Ravi", "55", ""⟩)]).st.recognizedName = "Ravi" :=
  ((late_recognize_reply_is_applied
    (run init [.startRecognize, .cameraSettled .granted,
      .captureRecognizePhoto ⟨640, 480, "AAAA"⟩])
    .startRegister (.reply ⟨"ok", true, "Ravi", "55", ""⟩)
    (by decide) (by decide) (Or.inr (Or.inl rfl))).2
    ⟨"ok", true, "Ravi", "55", ""⟩ rfl rfl rfl).2.1


/-! ## C15: a recognize request that fails -/

/-- C15: when the reply to `/recognize-face` has a status other than "ok", or
the request fails in transport or parsing, `handleRecognizeFace` changes
nothing but the result text: the view, the stream, the enrollment buffer, the
name and roll input fields, the captured recognition image, the recognized
name and roll, the cached attendance lists, the running streams and the video
element are what they were.  The same holds for the continuation in whatever
world the reply arrives. -/
theorem handleRecognizeFace_failure_changes_only_result (w : World)
    (o : Outcome RecognizeReply) (h : ∀ d, o = .reply d → d.status ≠ "ok") :
    ((handleRecognizeFace w o).st
        = { w.st with recognizeResult := (handleRecognizeFace w o).st.recognizeResult } ∧
      (handleRecognizeFace w o).st.recognizeImage = w.st.recognizeImage ∧
      (handleRecognizeFace w o).st.capturedImages = w.st.capturedImages ∧
      (handleRecognizeFace w o).st.studentName = w.st.studentName ∧
      (handleRecognizeFace w o).st.studentRoll = w.st.studentRoll ∧
      (handleRecognizeFace w o).st.stream = w.st.stream ∧
      (handleRecognizeFace w o).st.attendedToday = w.st.attendedToday ∧
      (handleRecognizeFace w o).st.notAttendedToday = w.st.notAttendedToday ∧
      (handleRecognizeFace w o).running = w.running ∧
      (handleRecognizeFace w o).videoRef = w.videoRef) ∧
    (∀ w2 : World,
      handleRecognizeFaceResume o w2
        = { w2 with st := { w2.st with
              recognizeResult := (handleRecognizeFaceResume o w2).st.recognizeResult } }) := by
  have hres : ∀ w2 : World,
      handleRecognizeFaceResume o w2
        = { w2 with st := { w2.st with
              recognizeResult := (handleRecognizeFaceResume o w2).st.recognizeResult } } := by
    intro w2
    unfold handleRecognizeFaceResume
    cases o with
    | failed => rfl
    | reply d =>
      have hd : d.status ≠ "ok" := h d rfl
      simp only [hd, if_false]
  refine ⟨?_, hres⟩
  have hst : (handleRecognizeFace w o).st
      = { w.st with recognizeResult := (handleRecognizeFace w o).st.recognizeResult } ∧
      (handleRecognizeFace w o).running = w.running ∧
      (handleRecognizeFace w o).videoRef = w.videoRef := by
    by_cases hi : w.st.recognizeImage = ""
    · have heq : handleRecognizeFace w o = alert "No captured image for recognition!" w := by
        unfold handleRecognizeFace handleRecognizeFaceBegin
        rw [if_pos hi]
      rw [heq]
      exact ⟨rfl, rfl, rfl⟩
    · have heq : handleRecognizeFace w o
          = handleRecognizeFaceResume o
              (send (.recognizeFace w.st.recognizeImage)
                { w with st := { w.st with recognizeResult := "Recognizing..." } }) := by
        unfold handleRecognizeFace handleRecognizeFaceBegin
        rw [if_neg hi]
      rw [heq]
      generalize hw1 : send (Request.recognizeFace w.st.recognizeImage)
        { w with st := { w.st with recognizeResult := "Recognizing..." } } = w1
      have h1 : w1.st = { w.st with recognizeResult := "Recognizing..." } ∧
          w1.running = w.running ∧ w1.videoRef = w.videoRef := by
        rw [← hw1]; exact ⟨rfl, rfl, rfl⟩
      have h2 := hres w1
      refine ⟨?_, ?_, ?_⟩
      · rw [h2]
        simp only [h1.1]
      · rw [h2]; exact h1.2.1
      · rw [h2]; exact h1.2.2
  obtain ⟨hs, hr, hvr⟩ := hst
  refine ⟨hs, ?_, ?_, ?_, ?_, ?_, ?_, ?_, hr, hvr⟩ <;> rw [hs]

/-- C15 on a concrete state: a photo is ready for recognition and the gateway
answers status "error". -/
theorem handleRecognizeFace_failure_changes_only_result_witness :
    (handleRecognizeFace
      (run init [.startRecognize, .cameraSettled .granted,
        .captureRecognizePhoto ⟨640, 480, "AAAA"⟩])
      (.reply ⟨"error", false, "", "", "no model"⟩)).st.recognizeImage
      = "data:image/jpeg;base64,AAAA" :=
  ((handleRecognizeFace_failure_changes_only_result
    (run init [.startRecognize, .cameraSettled .granted,
      .captureRecognizePhoto ⟨640, 480, "AAAA"⟩])
    (.reply ⟨"error", false, "", "", "no model"⟩)
    (fun d hd => by cases hd; decide)).1.2.1).trans (by decide)

/-! ## C17: a new photo after a successful recognition -/

/-- C17: `handleCaptureRecognizePhoto` changes nothing but the recognition
image slot, so a recognized name and roll stored by an earlier recognition stay
in place, and a click on Mark Attendance right after the new photo sends the
earlier subject's name and roll. -/
theorem handleCaptureRecognizePhoto_keeps_recognized (w : World) (f : Frame) :
    handleCaptureRecognizePhoto f w
      = { w with st := { w.st with
            recognizeImage := (handleCaptureRecognizePhoto f w).st.recognizeImage } } ∧
    (handleCaptureRecognizePhoto f w).st.recognizedName = w.st.recognizedName ∧
    (handleCaptureRecognizePhoto f w).st.recognizedRoll = w.st.recognizedRoll ∧
    (w.st.recognizedName ≠ "" → w.st.recognizedRoll ≠ "" →
      (handleMarkAttendanceBegin (handleCaptureRecognizePhoto f w)).2
        = some (.markAttendance w.st.recognizedName w.st.recognizedRoll) ∧
      (w.st.view = .recognize →
        (run w [.captureRecognizePhoto f, .markAttendance]).requests
          = w.requests ++ [.markAttendance w.st.recognizedName w.st.recognizedRoll])) := by
  have hshape : handleCaptureRecognizePhoto f w
      = { w with st := { w.st with
            recognizeImage := (handleCaptureRecognizePhoto f w).st.recognizeImage } } := by
    have hcases : handleCaptureRecognizePhoto f w = w ∨
        handleCaptureRecognizePhoto f w
          = { w with st := { w.st with recognizeImage := toDataURL f } } := by
      cases hvr : w.videoRef with
      | none =>
        left
        simp [handleCaptureRecognizePhoto, captureFrame, hvr]
      | some v =>
        right
        simp [handleCaptureRecognizePhoto, captureFrame, hvr, toDataURL_ne_empty]
    rcases hcases with hc | hc <;> rw [hc]
  have hname : (handleCaptureRecognizePhoto f w).st.recognizedName = w.st.recognizedName := by
    rw [hshape]
  have hroll : (handleCaptureRecognizePhoto f w).st.recognizedRoll = w.st.recognizedRoll := by
    rw [hshape]
  refine ⟨hshape, hname, hroll, ?_⟩
  intro hn hr
  have hb : ∀ w2 : World, w2.st.recognizedName = w.st.recognizedName →
      w2.st.recognizedRoll = w.st.recognizedRoll →
      handleMarkAttendanceBegin w2
        = (w2, some (.markAttendance w.st.recognizedName w.st.recognizedRoll)) := by
    intro w2 h1 h2
    unfold handleMarkAttendanceBegin
    simp [h1, h2, hn, hr]
  refine ⟨by rw [hb _ hname hroll], ?_⟩
  intro hv
  have hrun : run w [.captureRecognizePhoto f, .markAttendance]
      = step (step w (.captureRecognizePhoto f)) .markAttendance := rfl
  have h1 : (step w (.captureRecognizePhoto f)).st.recognizedName = w.st.recognizedName ∧
      (step w (.captureRecognizePhoto f)).st.recognizedRoll = w.st.recognizedRoll ∧
      (step w (.captureRecognizePhoto f)).st.view = .recognize ∧
      (step w (.captureRecognizePhoto f)).requests = w.requests := by
    simp only [step, render_st, render_requests, dispatch, hv, if_true]
    rw [hshape]
    exact ⟨rfl, rfl, hv, rfl⟩
  rw [hrun]
  generalize step w (.captureRecognizePhoto f) = w1 at h1
  simp only [step, render_requests, dispatch, h1.2.2.1, if_true, hb w1 h1.1 h1.2.1]
  rw [← h1.2.2.2]
  rfl

/-- C17 on scenario C: Ravi has been recognized, a new photo is captured, and
the click on Mark Attendance still sends Ravi, roll 55. -/
theorem handleCaptureRecognizePhoto_keeps_recognized_witness :
    (handleCaptureRecognizePhoto ⟨640, 480, "BBBB"⟩ scenarioC).st.recognizeImage
      = "data:image/jpeg;base64,BBBB" ∧
    (run scenarioC [.captureRecognizePhoto ⟨640, 480, "BBBB"⟩, .markAttendance]).requests
      = scenarioC.requests ++ [.markAttendance "Ravi" "55"] :=
  ⟨by decide,
   ((handleCaptureRecognizePhoto_keeps_recognized scenarioC ⟨640, 480, "BBBB"⟩).2.2.2
     (by decide) (by decide)).2 (by decide)⟩

end Attendence

namespace Menu

/-! ## C16: the rows of the exported menu -/

/-- The characters of a joined list: the first string, then each further string
behind the separator. -/
theorem join_data (sep x : String) (xs : List String) :
    (join sep (x :: xs)).data
      = x.data ++ xs.foldr (fun y acc => sep.data ++ y.data ++ acc) [] := by
  induction xs generalizing x with
  | nil => simp [join]
  | cons y ys ih =>
    simp only [join, String.data_append, List.foldr_cons, ih y, List.append_assoc]

/-- Joining strings without a double quote by a separator without one gives a
string without a double quote. -/
theorem join_no_dquote (sep : String) (hsep : dquoteChar ∉ sep.data) :
    ∀ xs : List String, (∀ x ∈ xs, dquoteChar ∉ x.data) → dquoteChar ∉ (join sep xs).data := by
  intro xs
  induction xs with
  | nil => intro _; simp [join]
  | cons x rest ih =>
    intro h
    rw [join_data]
    have hx := h x (List.mem_cons_self _ _)
    have hrest : ∀ ys : List String, (∀ y ∈ ys, dquoteChar ∉ y.data) →
        dquoteChar ∉ ys.foldr (fun y acc => sep.data ++ y.data ++ acc) [] := by
      intro ys
      induction ys with
      | nil => intro _; simp
      | cons y ys ihy =>
        intro hy
        simp only [List.foldr_cons, List.mem_append, not_or]
        exact ⟨⟨hsep, hy y (List.mem_cons_self _ _)⟩,
          ihy (fun z hz => hy z (List.mem_cons_of_mem _ hz))⟩
    simp only [List.mem_append, not_or]
    exact ⟨hx, hrest rest (fun z hz => h z (List.mem_cons_of_mem _ hz))⟩

/-- With pairwise distinct day names, looking a day up by its name finds that
day. -/
theorem find_day (menu : List DayMenu) (hd : (menu.map (fun d => d.day)).Nodup) :
    ∀ d ∈ menu, menu.find? (fun x => decide (x.day = d.day)) = some d := by
  induction menu with
  | nil => intro d hdm; cases hdm
  | cons a rest ih =>
    intro d hdm
    simp only [List.map_cons, List.nodup_cons] at hd
    rcases List.mem_cons.mp hdm with h | h
    · subst h
      simp
    · have hne : a.day ≠ d.day := by
        intro heq
        exact hd.1 (heq ▸ List.mem_map_of_mem (fun d => d.day) h)
      rw [List.find?_cons_of_neg _ (by simpa using hne)]
      exact ih hd.2 d h

/-- With pairwise distinct day names, the cells pushed for a list of days of
the menu are the quoted cell texts of those days. -/
theorem rowCells_eq (menu : List DayMenu) (hd : (menu.map (fun d => d.day)).Nodup)
    (t : String) :
    ∀ ds : List DayMenu, (∀ d ∈ ds, d ∈ menu) →
      rowCells menu t (ds.map (fun d => d.day))
        = some (ds.map (fun d => dquote ++ cellText d t ++ dquote)) := by
  intro ds
  induction ds with
  | nil => intro _; rfl
  | cons d rest ih =>
    intro h
    have hf := find_day menu hd d (h d (List.mem_cons_self _ _))
    have hr := ih (fun x hx => h x (List.mem_cons_of_mem _ hx))
    simp only [List.map_cons, rowCells, hf, hr, Option.map_some', cellText]


/-- A double quote switches between the quoted and the unquoted state. -/
theorem splitFields_dquote (cs : List Char) (quoted : Bool) (cur : List Char) :
    splitFields (dquoteChar :: cs) quoted cur = splitFields cs (!quoted) cur := by
  simp [splitFields]

/-- A comma outside quotes ends the current field. -/
theorem splitFields_comma (cs : List Char) (cur : List Char) :
    splitFields (commaChar :: cs) false cur = cur.reverse :: splitFields cs false [] := by
  have hne : commaChar ≠ dquoteChar := by decide
  simp [splitFields, hne]

/-- Outside quotes, a character other than the comma and the double quote is
added to the current field. -/
theorem splitFields_plain_char (c : Char) (cs : List Char) (cur : List Char)
    (h1 : c ≠ dquoteChar) (h2 : c ≠ commaChar) :
    splitFields (c :: cs) false cur = splitFields cs false (c :: cur) := by
  simp [splitFields, h1, h2]

/-- Inside quotes, a character other than the double quote is added to the
current field. -/
theorem splitFields_quoted_char (c : Char) (cs : List Char) (cur : List Char)
    (h1 : c ≠ dquoteChar) :
    splitFields (c :: cs) true cur = splitFields cs true (c :: cur) := by
  simp [splitFields, h1]

/-- Outside quotes, characters other than the comma and the double quote are
added to the current field. -/
theorem splitFields_plain (l rest : List Char) :
    ∀ cur : List Char, (∀ c ∈ l, c ≠ dquoteChar ∧ c ≠ commaChar) →
      splitFields (l ++ rest) false cur = splitFields rest false (l.reverse ++ cur) := by
  induction l with
  | nil => intro cur _; rfl
  | cons c cs ih =>
    intro cur h
    have hc := h c (List.mem_cons_self _ _)
    rw [List.cons_append, splitFields_plain_char c _ cur hc.1 hc.2,
      ih (c :: cur) (fun x hx => h x (List.mem_cons_of_mem _ hx)),
      List.reverse_cons, List.append_assoc, List.singleton_append]

/-- Inside quotes, characters other than the double quote are added to the
current field, commas included. -/
theorem splitFields_quoted (l rest : List Char) :
    ∀ cur : List Char, (∀ c ∈ l, c ≠ dquoteChar) →
      splitFields (l ++ rest) true cur = splitFields rest true (l.reverse ++ cur) := by
  induction l with
  | nil => intro cur _; rfl
  | cons c cs ih =>
    intro cur h
    have hc := h c (List.mem_cons_self _ _)
    rw [List.cons_append, splitFields_quoted_char c _ cur hc,
      ih (c :: cur) (fun x hx => h x (List.mem_cons_of_mem _ hx)),
      List.reverse_cons, List.append_assoc, List.singleton_append]

/-- A run of cells, each a comma followed by a quoted text without a double
quote, splits into the field before it and the texts. -/
theorem splitFields_cells :
    ∀ (cells : List (List Char)) (cur : List Char), (∀ c ∈ cells, dquoteChar ∉ c) →
      splitFields
          (cells.foldr (fun c acc => commaChar :: dquoteChar :: (c ++ dquoteChar :: acc)) [])
          false cur
        = cur.reverse :: cells := by
  intro cells
  induction cells with
  | nil => intro cur _; rfl
  | cons c cs ih =>
    intro cur h
    have hc : ∀ x ∈ c, x ≠ dquoteChar := by
      intro x hx heq
      exact h c (List.mem_cons_self _ _) (heq ▸ hx)
    have hcs := ih (c.reverse ++ []) (fun x hx => h x (List.mem_cons_of_mem _ hx))
    rw [List.foldr_cons, splitFields_comma, splitFields_dquote, Bool.not_false,
      splitFields_quoted c _ [] hc, splitFields_dquote, Bool.not_true, hcs,
      List.append_nil, List.reverse_reverse]


/-- A label without comma or double quote, followed by quoted texts without a
double quote, splits back into the label and the texts. -/
theorem splitCSV_row (t : String) (texts : List String)
    (ht : ∀ c ∈ t.data, c ≠ dquoteChar ∧ c ≠ commaChar)
    (hx : ∀ x ∈ texts, dquoteChar ∉ x.data) :
    splitCSV (join "," (t :: texts.map (fun c => dquote ++ c ++ dquote))) = t :: texts := by
  have hfold : ∀ xs : List String,
      (xs.map (fun c => dquote ++ c ++ dquote)).foldr
          (fun y acc => ("," : String).data ++ y.data ++ acc) []
        = (xs.map (fun x => x.data)).foldr
            (fun c acc => commaChar :: dquoteChar :: (c ++ dquoteChar :: acc)) [] := by
    intro xs
    induction xs with
    | nil => rfl
    | cons x rest ih =>
      have h1 : ("," : String).data = [commaChar] := by decide
      have h2 : dquote.data = [dquoteChar] := by decide
      rw [List.map_cons, List.foldr_cons, ih, String.data_append, String.data_append, h1, h2]
      simp only [List.singleton_append, List.cons_append, List.append_assoc, List.nil_append,
        List.map_cons, List.foldr_cons]
  have hcells : ∀ c ∈ texts.map (fun x => x.data), dquoteChar ∉ c := by
    intro c hc
    obtain ⟨x, hxm, rfl⟩ := List.mem_map.mp hc
    exact hx x hxm
  unfold splitCSV
  have hid : ∀ xs : List String, (xs.map (fun x => x.data)).map String.mk = xs := by
    intro xs
    induction xs with
    | nil => rfl
    | cons x rest ih => simp only [List.map_cons, ih]
  rw [join_data, hfold, splitFields_plain _ _ [] ht, splitFields_cells _ _ hcells,
    List.map_cons, hid, List.append_nil, List.reverse_reverse]

/-- The four labels hold neither a comma nor a double quote. -/
theorem mealTimes_plain :
    ∀ t ∈ mealTimes, ∀ c ∈ t.data, c ≠ dquoteChar ∧ c ≠ commaChar := by
  decide

/-- C16, refuted as stated: in a menu that lists Monday twice and has no double
quote in any item, the Breakfast row quotes the first Monday's items in both
cells, although the second day's breakfast is Idli. -/
theorem duplicate_day_repeats_first_cell :
    (∀ d ∈ twoMondays, ∀ m ∈ d.meals, ∀ i ∈ m.items, dquoteChar ∉ i.data) ∧
    (menuRow twoMondays (twoMondays.map (fun d => d.day)) "Breakfast").map splitCSV
      = some ["Breakfast", "Poha; Tea", "Poha; Tea"] ∧
    twoMondays.map (fun d => cellText d "Breakfast") = ["Poha; Tea", "Idli"] := by
  decide

/-- C16, amended: for every generated menu with pairwise distinct day names
whose item strings contain no double quote (commas allowed),
`handleDownloadNewMenu` returns a header line followed by exactly the four
meal-time rows, Breakfast, Lunch, Evening Snacks, Dinner, in that order; each
row is the label followed by one double-quoted cell per day, the cell holding
the items of that day's meal with that time joined by "; " (empty when the day
has no such meal); and under quoted-CSV splitting each row gives back the label
and those cell texts, 1 + (number of days) fields. -/
theorem handleDownloadNewMenu_rows (menu : List DayMenu)
    (hd : (menu.map (fun d => d.day)).Nodup) (hq : NoQuoteInItems menu) :
    handleDownloadNewMenu menu
      = some (join "\n" (("Meal Time," ++ join "," (menu.map (fun d => d.day)))
          :: mealTimes.map (expectedRow menu))) ∧
    (mealTimes.map (expectedRow menu)).length = 4 ∧
    (∀ t ∈ mealTimes,
      menuRow menu (menu.map (fun d => d.day)) t = some (expectedRow menu t) ∧
      splitCSV (expectedRow menu t) = t :: menu.map (fun d => cellText d t) ∧
      (splitCSV (expectedRow menu t)).length = 1 + menu.length) := by
  have hrow : ∀ t : String,
      menuRow menu (menu.map (fun d => d.day)) t = some (expectedRow menu t) := by
    intro t
    unfold menuRow expectedRow
    rw [rowCells_eq menu hd t menu (fun _ h => h)]
    rfl
  have hcell : ∀ t : String, ∀ x ∈ menu.map (fun d => cellText d t), dquoteChar ∉ x.data := by
    intro t x hxm
    obtain ⟨d, hdm, rfl⟩ := List.mem_map.mp hxm
    unfold cellText
    cases hf : d.meals.find? (fun m => decide (m.time = t)) with
    | none => simp
    | some meal =>
      have hmem : meal ∈ d.meals := List.mem_of_find?_eq_some hf
      exact join_no_dquote "; " (by decide) meal.items (hq d hdm meal hmem)
  have hsplit : ∀ t ∈ mealTimes,
      splitCSV (expectedRow menu t) = t :: menu.map (fun d => cellText d t) := by
    intro t ht
    have h := splitCSV_row t (menu.map (fun d => cellText d t)) (mealTimes_plain t ht)
      (hcell t)
    rw [List.map_map] at h
    exact h
  refine ⟨?_, rfl, ?_⟩
  · unfold handleDownloadNewMenu
    simp only [mealTimes, List.foldlM, hrow, Option.map_some', Option.bind_eq_bind,
      Option.some_bind, List.map_cons, List.map_nil, join, String.append_assoc]
    rfl
  · intro t ht
    refine ⟨hrow t, hsplit t ht, ?_⟩
    rw [hsplit t ht]
    simp [Nat.add_comm]

/-- C16, amended, on a menu of two days with a comma inside an item: the file
holds the header and the four rows, and the Breakfast row splits into three
fields. -/
theorem handleDownloadNewMenu_rows_witness :
    handleDownloadNewMenu twoDays
      = some (join "\n" ("Meal Time,Monday,Tuesday" :: mealTimes.map (expectedRow twoDays))) ∧
    splitCSV (expectedRow twoDays "Breakfast")
      = ["Breakfast", "Poha, with lemon; Tea", "Idli"] :=
  ⟨(handleDownloadNewMenu_rows twoDays (by decide) (by unfold NoQuoteInItems; decide)).1,
   ((handleDownloadNewMenu_rows twoDays (by decide) (by unfold NoQuoteInItems; decide)).2.2
     "Breakfast" (by decide)).2.1⟩

end Menu
